import Mathlib

/-!
# ESPAsyncLogger: a shallow embedding of the logging engine

The development follows the layout of the sources:

* `common.h`   : `Level`, the `Format` flags and the level-name tables;
* `entry.hpp`  : `Entry` and its two constructors;
* `device.hpp` : `Device`, its filter and its format engine;
* `logger.hpp` : `Logger`, registration, the bounded queue and the consumer loop.

Conventions of the embedding.

* Text is `List Char`; a C string held in a buffer is read up to the first NUL (`cstr`).
* A sink is the list of operations performed on it (`Op`): every byte handed to
  `Print::write(uint8_t)`, every `flush()`, and a marker for each call of the two hooks.
* `Option` results: `none` stands for undefined behaviour of the C++ program (a read outside
  an array, a read through a dangling reference, a call through a null pointer) or for a
  library call whose result the model leaves unspecified.
* What belongs to the platform and not to this repository (FreeRTOS, the Arduino `Print`
  class, the C library) is either a field of `Platform` or a small function modelled from
  its documented behaviour; each such definition says so.
-/

namespace asyncLogger

/-! ## common.h -/

/-- The enumeration `Level : uint8_t` of `common.h`. -/
inductive Level
  | NOTHING | FATAL | ERROR | WARN | NOTICE | INFO | DEBUG | TRACE | VERBOSE | ALWAYS
  deriving DecidableEq

/-- The numeric value of a level (`static_cast<uint8_t>(level)`). -/
def Level.toNat : Level → Nat
  | .NOTHING => 0
  | .FATAL => 1
  | .ERROR => 2
  | .WARN => 3
  | .NOTICE => 4
  | .INFO => 5
  | .DEBUG => 6
  | .TRACE => 7
  | .VERBOSE => 8
  | .ALWAYS => 9

/-- Flag `LEVEL_LETTER = 0b01 << 0`. -/
def LEVEL_LETTER : Nat := 1
/-- Flag `LEVEL_SHORT = 0b10 << 0`. -/
def LEVEL_SHORT : Nat := 2
/-- Flag `LEVEL_FULL = 0b11 << 0`. -/
def LEVEL_FULL : Nat := 3
/-- Flag `TIMESTAMP_SIMPLE = 0b01 << 2`. -/
def TIMESTAMP_SIMPLE : Nat := 4
/-- Flag `TIMESTAMP_SHORT = 0b10 << 2`. -/
def TIMESTAMP_SHORT : Nat := 8
/-- Flag `TIMESTAMP_FULL = 0b11 << 2`. -/
def TIMESTAMP_FULL : Nat := 12
/-- Flag `FILE_TRACE = 0b1 << 4`. -/
def FILE_TRACE : Nat := 16
/-- Flag `FUNCTION_TRACE = 0b1 << 5`. -/
def FUNCTION_TRACE : Nat := 32
/-- Flag `TASK_TRACE = 0b1 << 6`. -/
def TASK_TRACE : Nat := 64

/-- The table `LEVEL_STR_LETTER = "FEWNIDTVA"`, one character a level. -/
def LEVEL_STR_LETTER : List Char := "FEWNIDTVA".toList

/-- The table `LEVEL_STR_SHORT`. -/
def LEVEL_STR_SHORT : List (List Char) :=
  ["FAT".toList, "ERR".toList, "WAR".toList, "NOT".toList, "INF".toList, "DEB".toList,
   "TRA".toList, "VER".toList, "ALW".toList]

/-- The table `LEVEL_STR_FULL`. -/
def LEVEL_STR_FULL : List (List Char) :=
  ["FATAL".toList, "ERROR".toList, "WARN".toList, "NOTICE".toList, "INFO".toList,
   "DEBUG".toList, "TRACE".toList, "VERBOSE".toList, "ALWAYS".toList]

/-- The constant `DEFAULT_LEVEL`, in a build that defines neither `USE_CORE_DEBUG_LEVEL`
nor `ASYNC_LOG_DEFAULT_LEVEL`. -/
def DEFAULT_LEVEL : Level := Level.WARN

/-- The constant `DEFAULT_FORMAT`. -/
def DEFAULT_FORMAT : Nat :=
  LEVEL_SHORT ||| TIMESTAMP_FULL ||| FILE_TRACE ||| FUNCTION_TRACE ||| TASK_TRACE

/-- Reading `table[i]` for a signed index: `none` when `i` lies outside the array, where the
C++ read has undefined behaviour. -/
def tableAt {α : Type} (table : List α) (i : Int) : Option α :=
  if 0 ≤ i then table.get? i.toNat else none

/-! ## entry.hpp -/

/-- The constant `MAX_MSG_LEN`. -/
def MAX_MSG_LEN : Nat := 95

/-- The string terminator. -/
def NUL : Char := Char.ofNat 0

/-- The C struct `timeval`: seconds and microseconds. -/
structure timeval where
  tv_sec : Int
  tv_usec : Int
  deriving DecidableEq

/-- The struct `Entry`. A `const char*` is `none` when null; `task` is the `TaskHandle_t`,
`none` when null; `message` is the 95-byte buffer. -/
structure Entry where
  timestamp : timeval
  file : Option (List Char)
  line : Nat
  function : Option (List Char)
  task : Option Nat
  message : List Char
  level : Level
  deriving DecidableEq

/-- The text a character buffer holds as a C string: its bytes before the first NUL. -/
def cstr (buf : List Char) : List Char :=
  buf.takeWhile (fun c => c != NUL)

/-- The libc call `snprintf(buf, n, format, args...)`, where `s` is the text the format
expands to with its arguments: at most `n - 1` characters of `s` are stored, then a NUL; the
rest of the buffer is left as it was. (Modelled from the C standard; not code of this
repository.) -/
def snprintf (buf : List Char) (n : Nat) (s : List Char) : List Char :=
  if n = 0 then buf
  else (s.take (n - 1) ++ [NUL]) ++ buf.drop ((s.take (n - 1)).length + 1)

/-- The default constructor `Entry()`: everything zero, level `Level()`, that is `NOTHING`. -/
def Entry.empty : Entry :=
  { timestamp := ⟨0, 0⟩, file := none, line := 0, function := none, task := none,
    message := List.replicate MAX_MSG_LEN NUL, level := Level.NOTHING }

/-- The constructor `Entry(level, file, line, function, format, args...)`. `now` is what
`gettimeofday` returns and `cur` what `xTaskGetCurrentTaskHandle()` returns at the call;
`format` is `none` for a null format string and otherwise the text the format expands to
with its arguments. `line` is a `uint32_t`. -/
def Entry.new (now : timeval) (cur : Option Nat) (level : Level) (file : Option (List Char))
    (line : Nat) (function : Option (List Char)) (format : Option (List Char)) : Entry :=
  let message := List.replicate MAX_MSG_LEN NUL
  { timestamp := now, file := file, line := line % 2 ^ 32, function := function, task := cur,
    level := level,
    message := match format with
      | some s => snprintf message MAX_MSG_LEN s
      | none => message }

/-! ## Platform services used by device.hpp -/

/-- What the platform supplies to the format engine: the FreeRTOS lookup `pcTaskGetName`
(from a task handle, possibly null, to a name, possibly null) and the line terminator that
`Print::println` writes. -/
structure Platform where
  pcTaskGetName : Option Nat → Option (List Char)
  newline : List Char

/-- The C struct `tm`, the fields the format engine reads; `tm_mon` counts from 0 and
`tm_year` from 1900. -/
structure tm where
  tm_sec : Int
  tm_min : Int
  tm_hour : Int
  tm_mday : Int
  tm_mon : Int
  tm_year : Int
  deriving DecidableEq

/-- The libc call `gmtime_r`: seconds since the epoch to UTC calendar time in the proleptic
Gregorian calendar. (Modelled from POSIX; not code of this repository. The range of the `int`
field `tm_year` is not modelled.) -/
def gmtime_r (t : Int) : tm :=
  let days := t / 86400
  let secs := t % 86400
  let z := days + 719468
  let era := z / 146097
  let doe := z % 146097
  let yoe := (doe - doe / 1460 + doe / 36524 - doe / 146096) / 365
  let doy := doe - (365 * yoe + yoe / 4 - yoe / 100)
  let mp := (5 * doy + 2) / 153
  let d := doy - (153 * mp + 2) / 5 + 1
  let m := if mp < 10 then mp + 3 else mp - 9
  let y := yoe + era * 400 + (if m ≤ 2 then 1 else 0)
  { tm_sec := secs % 60, tm_min := secs / 60 % 60, tm_hour := secs / 3600,
    tm_mday := d, tm_mon := m - 1, tm_year := y - 1900 }

/-- The printf conversion `%0<width>lld`: decimal, zero-padded to `width` characters, the
sign counted in the width. -/
def fmt_lld (width : Nat) (n : Int) : List Char :=
  let digits := Nat.toDigits 10 n.natAbs
  if n < 0 then '-' :: (List.replicate (width - 1 - digits.length) '0' ++ digits)
  else List.replicate (width - digits.length) '0' ++ digits

/-- The strftime conversion `%T`, that is `%H:%M:%S`. -/
def strftime_T (t : tm) : List Char :=
  fmt_lld 2 t.tm_hour ++ [':'] ++ fmt_lld 2 t.tm_min ++ [':'] ++ fmt_lld 2 t.tm_sec

/-- The strftime conversion `%F`, that is `%Y-%m-%d`. -/
def strftime_F (t : tm) : List Char :=
  fmt_lld 4 (t.tm_year + 1900) ++ ['-'] ++ fmt_lld 2 (t.tm_mon + 1) ++ ['-'] ++
    fmt_lld 2 t.tm_mday

/-- The libc call `strftime(buf, size, ...)` once the text `s` to store is known: the text
is stored when it fits with its terminator; otherwise the call returns 0 and the contents of
the buffer are unspecified, `none`. -/
def strftime (size : Nat) (s : List Char) : Option (List Char) :=
  if s.length < size then some s else none

/-! ## device.hpp -/

/-- One operation on the sink of a device: the call of a hook, a byte handed to
`Print::write(uint8_t)`, or `flush()`. -/
inductive Op
  | writeStart
  | byte (c : Char)
  | flush
  | writeEnd
  deriving DecidableEq

/-- The bytes among the operations of a sink, in order. -/
def bytesOf : List Op → List Char
  | [] => []
  | Op.byte c :: ops => c :: bytesOf ops
  | _ :: ops => bytesOf ops

/-- What a concrete device class supplies: the result of its `initialize()`, and the bytes
its overrides of the hooks `writeStart` and `writeEnd` print for an entry (none for the
defaults of `Device`). -/
structure DeviceKind where
  initializeOk : Bool
  writeStart : Entry → List Char
  writeEnd : Entry → List Char

/-- A device class that keeps the default hooks of `Device`, as `SerialLog` does. -/
def DeviceKind.plain (ok : Bool) : DeviceKind :=
  { initializeOk := ok, writeStart := fun _ => [], writeEnd := fun _ => [] }

/-- A `Device` object: its address on the heap, its class, the private fields `level_` and
`format_` (a `uint8_t`), and its sink. -/
structure Device where
  addr : Nat
  kind : DeviceKind
  level_ : Level
  format_ : Nat
  sink : List Op

/-- The constructor `Device(Level level, uint8_t format)` as the device classes call it with
the `int format` they receive: the format is narrowed to eight bits. -/
def Device.new (addr : Nat) (kind : DeviceKind) (level : Level) (format : Int) : Device :=
  { addr := addr, kind := kind, level_ := level, format_ := (format % 256).toNat, sink := [] }

/-- The member `setLevel`. -/
def Device.setLevel (d : Device) (level : Level) : Device := { d with level_ := level }

/-- The member `setFormat`. -/
def Device.setFormat (d : Device) (format : Nat) : Device := { d with format_ := format % 256 }

/-- `Print::print(const char*)`, and `operator<<` on a string: byte after byte to the sink. -/
def Device.print (d : Device) (s : List Char) : Device :=
  { d with sink := d.sink ++ s.map Op.byte }

/-- `Print::print(char)`, and `operator<<` on a character. -/
def Device.printChar (d : Device) (c : Char) : Device := d.print [c]

/-- `Print::print(unsigned)`, and `operator<<` on the line number: decimal digits. -/
def Device.printNat (d : Device) (n : Nat) : Device := d.print (Nat.toDigits 10 n)

/-- `Print::println(const char*)`: the text, then the line terminator. -/
def Device.println (P : Platform) (d : Device) (s : List Char) : Device :=
  (d.print s).print P.newline

/-- `Print::flush()`. -/
def Device.flush (d : Device) : Device := { d with sink := d.sink ++ [Op.flush] }

/-- The virtual hook `writeStart`, as the class of the device defines it. -/
def Device.writeStart (d : Device) (entry : Entry) : Device :=
  { d with sink := d.sink ++ [Op.writeStart] }.print (d.kind.writeStart entry)

/-- The virtual hook `writeEnd`, as the class of the device defines it. -/
def Device.writeEnd (d : Device) (entry : Entry) : Device :=
  { d with sink := d.sink ++ [Op.writeEnd] }.print (d.kind.writeEnd entry)

/-- `Device::writeLevel`. -/
def Device.writeLevel (d : Device) (entry : Entry) : Option Device :=
  let level : Int := (entry.level.toNat : Int) - 1
  if d.format_ &&& LEVEL_FULL = LEVEL_FULL then
    (tableAt LEVEL_STR_FULL level).map fun name =>
      (((d.printChar '[').print name).print "] ".toList)
  else if d.format_ &&& LEVEL_LETTER ≠ 0 then
    (tableAt LEVEL_STR_LETTER level).map fun letter =>
      (((d.printChar '[').printChar letter).print "] ".toList)
  else if d.format_ &&& LEVEL_SHORT ≠ 0 then
    (tableAt LEVEL_STR_SHORT level).map fun name =>
      (((d.printChar '[').print name).print "] ".toList)
  else some d

/-- `Device::writeTimestamp`. -/
def Device.writeTimestamp (d : Device) (entry : Entry) : Option Device :=
  if d.format_ &&& TIMESTAMP_FULL = TIMESTAMP_FULL then
    let t := gmtime_r entry.timestamp.tv_sec
    let tmp := fmt_lld 3 (Int.tdiv entry.timestamp.tv_usec 1000) ++ [' ']
    (strftime 32 (strftime_F t ++ [' '] ++ strftime_T t ++ ['.'] ++ tmp)).map d.print
  else if d.format_ &&& TIMESTAMP_SIMPLE ≠ 0 then
    some (d.print (fmt_lld 10 entry.timestamp.tv_sec ++ ['.'] ++
      fmt_lld 3 (Int.tdiv entry.timestamp.tv_usec 1000) ++ [' ']))
  else if d.format_ &&& TIMESTAMP_SHORT ≠ 0 then
    let t := gmtime_r entry.timestamp.tv_sec
    (strftime 10 (strftime_T t ++ [' '])).map d.print
  else some d

/-- `Device::writeFileFunctionTrace`. -/
def Device.writeFileFunctionTrace (d : Device) (entry : Entry) : Device :=
  if (d.format_ &&& FILE_TRACE ≠ 0 ∨ d.format_ &&& FUNCTION_TRACE ≠ 0) ∧
      (entry.file.isSome ∨ entry.function.isSome) then
    let d := d.printChar '['
    let d :=
      if d.format_ &&& FILE_TRACE ≠ 0 ∧ entry.file.isSome then
        let d := ((d.print (entry.file.getD [])).printChar ':').printNat entry.line
        if d.format_ &&& FUNCTION_TRACE ≠ 0 ∧ entry.function.isSome then d.printChar ' '
        else d
      else d
    let d :=
      if d.format_ &&& FUNCTION_TRACE ≠ 0 ∧ entry.function.isSome then
        d.print (entry.function.getD [])
      else d
    d.print "] ".toList
  else d

/-- `Device::writeTaskTrace`. -/
def Device.writeTaskTrace (P : Platform) (d : Device) (entry : Entry) : Device :=
  if d.format_ &&& TASK_TRACE ≠ 0 then
    let name := P.pcTaskGetName entry.task
    ((d.print "[task: ".toList).print (name.getD "<null>".toList)).print "] ".toList
  else d

/-- `Device::write`. -/
def Device.write (P : Platform) (d : Device) (entry : Entry) : Option Device :=
  if d.level_.toNat < entry.level.toNat then some d
  else do
    let d := d.writeStart entry
    let d ← d.writeLevel entry
    let d ← d.writeTimestamp entry
    let d := d.writeFileFunctionTrace entry
    let d := d.writeTaskTrace P entry
    let d := if d.format_ ≠ 0 then d.print "- ".toList else d
    let d := d.println P (cstr entry.message)
    let d := d.flush
    pure (d.writeEnd entry)

/-! ## The output of the steps of `Device::write` -/

/-- The device after the operations `ops` on its sink. -/
def Device.emit (d : Device) (ops : List Op) : Device := { d with sink := d.sink ++ ops }

/-- The device with nothing yet done on its sink. -/
def Device.clear (d : Device) : Device := { d with sink := [] }

/-- The level tag: the bytes `writeLevel` prints for the entry. -/
def Device.levelTag (d : Device) (entry : Entry) : Option (List Char) :=
  (d.clear.writeLevel entry).map fun r => bytesOf r.sink

/-- The timestamp tag: the bytes `writeTimestamp` prints for the entry. -/
def Device.timestampTag (d : Device) (entry : Entry) : Option (List Char) :=
  (d.clear.writeTimestamp entry).map fun r => bytesOf r.sink

/-- The source trace tag: the bytes `writeFileFunctionTrace` prints for the entry. -/
def Device.traceTag (d : Device) (entry : Entry) : List Char :=
  bytesOf (d.clear.writeFileFunctionTrace entry).sink

/-- The task trace tag: the bytes `writeTaskTrace` prints for the entry. -/
def Device.taskTag (P : Platform) (d : Device) (entry : Entry) : List Char :=
  bytesOf (d.clear.writeTaskTrace P entry).sink

/-- The separator as the specification words it: the literal `- ` when the format bitmask
is non-zero. -/
def separator (format : Nat) : List Char :=
  if format = 0 then [] else "- ".toList

/-- The rendering of an entry as the specification lists its steps: the `writeStart` hook,
the level tag, the timestamp tag, the source trace tag, the task trace tag, the separator,
the message, the line terminator, the flush, the `writeEnd` hook. -/
def Device.rendering (P : Platform) (d : Device) (entry : Entry) : Option (List Op) :=
  (d.levelTag entry).bind fun level =>
    (d.timestampTag entry).map fun timestamp =>
      [Op.writeStart] ++
      (d.kind.writeStart entry ++ level ++ timestamp ++ d.traceTag entry ++ d.taskTag P entry ++
        separator d.format_ ++ cstr entry.message ++ P.newline).map Op.byte ++
      [Op.flush, Op.writeEnd] ++ (d.kind.writeEnd entry).map Op.byte

/-- What the device does on its sink for one entry: its rendering, or nothing when the entry
is filtered out (or the rendering is undefined). -/
def Device.output (P : Platform) (d : Device) (entry : Entry) : List Op :=
  ((d.clear.write P entry).map Device.sink).getD []

/-! ## logger.hpp -/

/-- The macro `ASYNC_LOG_QUEUE_LENGTH`, at its default. -/
def ASYNC_LOG_QUEUE_LENGTH : Nat := 32

/-- A FreeRTOS queue of entries: its length `uxLength` fixed at creation and the items it
holds, oldest first. (The queue functions below are modelled from the FreeRTOS reference;
they are not code of this repository.) -/
structure Queue where
  uxLength : Nat
  items : List Entry
  deriving DecidableEq

/-- FreeRTOS `xQueueCreateStatic(uxQueueLength, ...)`: an empty queue. -/
def xQueueCreateStatic (uxQueueLength : Nat) : Queue :=
  { uxLength := uxQueueLength, items := [] }

/-- FreeRTOS `xQueueSend(queue, &item, 0)`: the item is copied to the back of the queue and
`pdTRUE` returned; with no room, and no time to wait, the queue is left as it is and
`errQUEUE_FULL` returned. -/
def xQueueSend (q : Queue) (item : Entry) : Queue × Bool :=
  if q.items.length < q.uxLength then ({ q with items := q.items ++ [item] }, true)
  else (q, false)

/-- FreeRTOS `xQueueSendFromISR(queue, &item, &woken)`: as `xQueueSend` without waiting; the
third component is the value left in `woken`, set when the item was posted and that unblocked
a task of higher priority (`waiting`, a fact of the scheduler). -/
def xQueueSendFromISR (q : Queue) (item : Entry) (waiting : Bool) : Queue × Bool × Bool :=
  if q.items.length < q.uxLength then ({ q with items := q.items ++ [item] }, true, waiting)
  else (q, false, false)

/-- FreeRTOS `xQueueReceive(queue, &buffer, portMAX_DELAY)`: the oldest item and the queue
without it; `none` while the queue is empty and the caller stays blocked. -/
def xQueueReceive (q : Queue) : Option (Entry × Queue) :=
  match q.items with
  | [] => none
  | item :: rest => some (item, { q with items := rest })

/-- The type `DeviceHandle = std::unique_ptr<Device>`: null, or the device it owns. -/
abbrev DeviceHandle := Option Device

/-- The pointer a handle holds (`get()`), `none` for null. -/
def DeviceHandle.get (h : DeviceHandle) : Option Nat := h.map Device.addr

/-- The member `devices_`, a `std::vector<DeviceHandle>`: the address of its heap array, the
capacity of that array, and its elements. -/
structure DeviceVector where
  buffer : Nat
  capacity : Nat
  elems : List DeviceHandle

/-- `std::vector::push_back`: the element goes to the next free slot of the array; a full
array is first replaced by one of twice the size at the address `fresh` (the growth of GNU
libstdc++, the library of the ESP32 toolchain), its elements moved over. -/
def DeviceVector.push_back (v : DeviceVector) (fresh : Nat) (h : DeviceHandle) : DeviceVector :=
  if v.elems.length < v.capacity then { v with elems := v.elems ++ [h] }
  else { buffer := fresh, capacity := max 1 (2 * v.capacity), elems := v.elems ++ [h] }

/-- `std::erase_if(vector, pred)`: the elements for which `pred` fails, in their order, moved
down to the front of the same array. -/
def DeviceVector.erase_if (v : DeviceVector) (pred : DeviceHandle → Bool) : DeviceVector :=
  { v with elems := v.elems.filter (fun ptr => !pred ptr) }

/-- A `const DeviceHandle&`: a reference to a `unique_ptr` object. The objects a caller can
name are the static member `empty_handle`, the slot `index` of the array at `buffer` of
`devices_` (what `devices_.back()` returns), and a `unique_ptr` of its own holding the
pointer `p`. -/
inductive HandleRef
  | empty_handle
  | element (buffer : Nat) (index : Nat)
  | object (p : Option Nat)
  deriving DecidableEq

/-- The class `Logger`: the queue handle (`none` when null), `entry_buf_`, `devices_`, and
two pieces of bookkeeping of the model: `heap_top`, above which no address has been handed
out by the allocator, and `written`, the addresses of the devices whose `write` the consumer
has called, in call order. -/
structure Logger where
  queue_ : Option Queue
  entry_buf_ : Entry
  devices_ : DeviceVector
  heap_top : Nat
  written : List Nat

/-- The constructor `Logger()`: the queue is created with its static storage; no device. -/
def Logger.new : Logger :=
  { queue_ := some (xQueueCreateStatic ASYNC_LOG_QUEUE_LENGTH), entry_buf_ := Entry.empty,
    devices_ := { buffer := 0, capacity := 0, elems := [] }, heap_top := 1, written := [] }

/-- Reading the pointer held by the handle a reference designates. A slot of `devices_` can
be read while it is a live element of the current array; a reference into an array that was
replaced, or to a slot past the last element, dangles and the read is undefined, `none`. -/
def Logger.read (lg : Logger) : HandleRef → Option (Option Nat)
  | .empty_handle => some none
  | .object p => some p
  | .element buffer index =>
    if buffer = lg.devices_.buffer then (lg.devices_.elems.get? index).map DeviceHandle.get
    else none

/-- `Logger::registerDevice<TDevice>(level, format, args...)`: the returned reference and the
logger afterwards. `make_unique` places the device at the first unused address and does not
return null; a device that fails to initialise is destroyed on return. -/
def Logger.registerDevice (lg : Logger) (TDevice : DeviceKind) (level : Level) (format : Int) :
    HandleRef × Logger :=
  let device : DeviceHandle := some (Device.new lg.heap_top TDevice level format)
  match device with
  | some d =>
    if d.kind.initializeOk then
      let devices := lg.devices_.push_back (lg.heap_top + 1) device
      (HandleRef.element devices.buffer (devices.elems.length - 1),
        { lg with devices_ := devices, heap_top := lg.heap_top + 2 })
    else (HandleRef.empty_handle, lg)
  | none => (HandleRef.empty_handle, lg)

/-- `Logger::unregisterDevice(handle)`. The handle is read through the reference when the
call is made; the elements holding the same pointer are erased. (The predicate of the source
reads the reference again at every comparison; on a vector of distinct non-null owners, as
`unique_ptr` keeps it, that erases the same single element.) -/
def Logger.unregisterDevice (lg : Logger) (handle : HandleRef) : Option Logger :=
  match lg.read handle with
  | none => none
  | some none => some lg
  | some (some p) =>
    some { lg with devices_ := lg.devices_.erase_if (fun ptr => ptr.get == some p) }

/-- `Logger::log(const Entry&)`. -/
def Logger.log (lg : Logger) (entry : Entry) : Logger :=
  match lg.queue_ with
  | some q => { lg with queue_ := some (xQueueSend q entry).1 }
  | none => lg

/-- `Logger::log(Level, const char*, args...)`: an entry without file, line and function. -/
def Logger.logFormat (lg : Logger) (now : timeval) (cur : Option Nat) (level : Level)
    (format : Option (List Char)) : Logger :=
  lg.log (Entry.new now cur level none 0 none format)

/-- `Logger::logISR(const Entry&)`: the logger afterwards, and whether `portYIELD_FROM_ISR`
was called. -/
def Logger.logISR (lg : Logger) (entry : Entry) (waiting : Bool) : Logger × Bool :=
  match lg.queue_ with
  | some q =>
    let r := xQueueSendFromISR q entry waiting
    ({ lg with queue_ := some r.1 }, r.2.2)
  | none => (lg, false)

/-- The inner loop of `Logger::loop`, `for (const auto& device : devices_) device->write(..)`:
the devices afterwards and the addresses of the devices written, in call order. The call
through a null handle is undefined. -/
def Logger.forEachDevice (P : Platform) (entry : Entry) :
    List DeviceHandle → Option (List DeviceHandle × List Nat)
  | [] => some ([], [])
  | device :: rest => do
    let d ← device
    let d' ← d.write P entry
    let r ← Logger.forEachDevice P entry rest
    pure (some d' :: r.1, d.addr :: r.2)

/-- One turn of the endless loop of `Logger::loop`: with a queue and an entry in it, the entry
is received into `entry_buf_` and dispatched; with a null queue the turn does nothing, and on
an empty queue the consumer stays blocked in `xQueueReceive`, the state as it is. -/
def Logger.loop (P : Platform) (lg : Logger) : Option Logger :=
  match lg.queue_ with
  | none => some lg
  | some q =>
    match xQueueReceive q with
    | none => some lg
    | some (entry, q') =>
      (Logger.forEachDevice P entry lg.devices_.elems).map fun r =>
        { lg with queue_ := some q', entry_buf_ := entry,
                  devices_ := { lg.devices_ with elems := r.1 },
                  written := lg.written ++ r.2 }

/-- The consumer running for `n` turns of its loop. -/
def Logger.loopN (P : Platform) : Nat → Logger → Option Logger
  | 0, lg => some lg
  | n + 1, lg => (Logger.loop P lg).bind (Logger.loopN P n)

/-- A submission to the logger: `log(entry)` from a task, or `logISR(entry)` from an
interrupt handler, with what the scheduler then reports. -/
inductive Submission
  | task (entry : Entry)
  | isr (entry : Entry) (waiting : Bool)

/-- The entry of a submission. -/
def Submission.entry : Submission → Entry
  | .task entry => entry
  | .isr entry _ => entry

/-- The logger after one submission. -/
def Logger.submit (lg : Logger) : Submission → Logger
  | .task entry => lg.log entry
  | .isr entry waiting => (lg.logISR entry waiting).1

/-- A number below 100 in two decimal digits. -/
def twoDigits (n : Int) : List Char :=
  [Nat.digitChar (n.toNat / 10), Nat.digitChar (n.toNat % 10)]

/-- The UTC clock time `HH:MM:SS` of a count of seconds since the epoch, as the
specification words it: the hour of the day, the minute of the hour, the second of the
minute, two digits each. -/
def utcClock (seconds : Int) : List Char :=
  twoDigits (seconds / 3600 % 24) ++ [':'] ++ twoDigits (seconds / 60 % 60) ++ [':'] ++
    twoDigits (seconds % 60)

/-- The bytes each registered device has received on its sink, in registration order. -/
def Logger.outputs (lg : Logger) : List (List Char) :=
  lg.devices_.elems.map fun h =>
    match h with
    | some d => bytesOf d.sink
    | none => []

/-! ## serial.hpp and examples/Basic/src/main.cpp -/

/-- The class `SerialLog`: `initialize()` returns `true`, and the hooks are those of
`Device`. -/
def SerialLog : DeviceKind := DeviceKind.plain true

/-- The function `setup()` of `examples/Basic/src/main.cpp`, on a fresh logger: one device
at level `DEBUG`, then `Logger.log(Level::INFO, "Hello World!")` at the time `now` from the
task `cur`. -/
def Basic.setup (now : timeval) (cur : Option Nat) : Logger :=
  (Logger.new.registerDevice SerialLog Level.DEBUG
    ((LEVEL_LETTER ||| TIMESTAMP_SHORT ||| FILE_TRACE ||| FUNCTION_TRACE : Nat) : Int)).2.logFormat
    now cur Level.INFO (some "Hello World!".toList)

/-- Two devices without any formatting, registered on a fresh logger at the levels `first`
and `second`. -/
def twoRegistered (first second : Level) : Logger :=
  ((Logger.new.registerDevice SerialLog first 0).2.registerDevice SerialLog second 0).2

/-- The scenario of two devices without any formatting and one entry logged. -/
def twoDevices (first second : Level) (entry : Entry) : Logger :=
  (twoRegistered first second).log entry

/-- An entry without source location, of the given level and message, made at the epoch. -/
def plainEntry (level : Level) (message : String) : Entry :=
  Entry.new ⟨0, 0⟩ none level none 0 none (some message.toList)

/-- The logger after a sequence of submissions, made one after the other. -/
def Logger.submitAll (lg : Logger) (subs : List Submission) : Logger :=
  subs.foldl Logger.submit lg

/-- The logger after `log(entry)` for each entry of a sequence, in order. -/
def Logger.logAll (lg : Logger) (entries : List Entry) : Logger :=
  entries.foldl Logger.log lg

/-- A device receiving `write` for each entry of a sequence, in order. -/
def Device.writeAll (P : Platform) : Device → List Entry → Option Device
  | d, [] => some d
  | d, entry :: entries => (d.write P entry).bind fun d' => Device.writeAll P d' entries

/-- The pointers held by the elements of `devices_`, in order. -/
def Logger.pointers (lg : Logger) : List (Option Nat) :=
  lg.devices_.elems.map DeviceHandle.get

/-- A caller registers four devices, unregisters the third through its handle, registers a
fifth device, and then unregisters with the handle it was given for the fourth device, which
is still registered. -/
def staleSlotScenario : Option Logger :=
  let a := Logger.new.registerDevice SerialLog Level.ERROR 0
  let b := a.2.registerDevice SerialLog Level.WARN 0
  let c := b.2.registerDevice SerialLog Level.INFO 0
  let d := c.2.registerDevice SerialLog Level.DEBUG 0
  (d.2.unregisterDevice c.1).bind fun lg =>
    (lg.registerDevice SerialLog Level.TRACE 0).2.unregisterDevice d.1

/-- A caller registers two devices and then unregisters with the handle it was given for
the first. -/
def movedArrayScenario : Option Logger :=
  let a := Logger.new.registerDevice SerialLog Level.ERROR 0
  let b := a.2.registerDevice SerialLog Level.WARN 0
  b.2.unregisterDevice a.1

/-- A caller registers a device, unregisters it, registers a second device, and calls
`unregisterDevice` once more with the handle of the first, whose device is gone. -/
def reusedSlotScenario : Option Logger :=
  let a := Logger.new.registerDevice SerialLog Level.ERROR 0
  (a.2.unregisterDevice a.1).bind fun lg =>
    (lg.registerDevice SerialLog Level.DEBUG 0).2.unregisterDevice a.1

/-! ## Words of the specification on the tags -/

/-- The full name of a level, as the specification prints it; `NOTHING` has none. -/
def Level.fullName : Level → List Char
  | .NOTHING => []
  | .FATAL => "FATAL".toList
  | .ERROR => "ERROR".toList
  | .WARN => "WARN".toList
  | .NOTICE => "NOTICE".toList
  | .INFO => "INFO".toList
  | .DEBUG => "DEBUG".toList
  | .TRACE => "TRACE".toList
  | .VERBOSE => "VERBOSE".toList
  | .ALWAYS => "ALWAYS".toList

/-- The level tag as the specification words it, from the two-bit level subfield: the full
name for 3, its first letter for 1, its first three letters for 2, in brackets and followed
by a space; nothing for 0. -/
def levelTagSpec (subfield : Nat) (level : Level) : List Char :=
  if subfield = 3 then ['['] ++ level.fullName ++ "] ".toList
  else if subfield = 1 then ['['] ++ level.fullName.take 1 ++ "] ".toList
  else if subfield = 2 then ['['] ++ level.fullName.take 3 ++ "] ".toList
  else []

/-- A number in decimal, left-padded with zeros to `width` digits. -/
def zeroPad (width n : Nat) : List Char :=
  List.replicate (width - (Nat.toDigits 10 n).length) '0' ++ Nat.toDigits 10 n

/-- The timestamp tag in the simple style as the specification words it: the seconds in
decimal, left-padded with zeros to 10 digits, a dot, the milliseconds `floor(u / 1000)`
left-padded with zeros to 3 digits, and a space. -/
def timestampSimple (seconds microseconds : Nat) : List Char :=
  zeroPad 10 seconds ++ ['.'] ++ zeroPad 3 (microseconds / 1000) ++ [' ']

/-- The timestamp tag by style, the style being the two-bit timestamp subfield: 3 is the full
style (the calendar date and clock time that `strftime` writes into the buffer of 32 bytes),
1 the simple style, 2 the short style (the clock time), 0 no tag. -/
def timestampTagOf (subfield : Nat) (ts : timeval) : Option (List Char) :=
  if subfield = 3 then
    strftime 32 (strftime_F (gmtime_r ts.tv_sec) ++ [' '] ++ strftime_T (gmtime_r ts.tv_sec) ++
      ['.'] ++ (fmt_lld 3 (Int.tdiv ts.tv_usec 1000) ++ [' ']))
  else if subfield = 1 then
    some (fmt_lld 10 ts.tv_sec ++ ['.'] ++ fmt_lld 3 (Int.tdiv ts.tv_usec 1000) ++ [' '])
  else if subfield = 2 then some (utcClock ts.tv_sec ++ [' '])
  else some []

/-- The part `file:line` of the source trace group as the specification words it: present
when `FILE_TRACE` is set and the entry has a file. -/
def filePart (format : Nat) (entry : Entry) : List Char :=
  if format &&& FILE_TRACE ≠ 0 ∧ entry.file.isSome then
    entry.file.getD [] ++ [':'] ++ Nat.toDigits 10 entry.line
  else []

/-- The function part of the source trace group as the specification words it: present when
`FUNCTION_TRACE` is set and the entry has a function. -/
def functionPart (format : Nat) (entry : Entry) : List Char :=
  if format &&& FUNCTION_TRACE ≠ 0 ∧ entry.function.isSome then entry.function.getD [] else []

/-- The space between the two parts of the source trace group: there when both parts are. -/
def partSpace (format : Nat) (entry : Entry) : List Char :=
  if (format &&& FILE_TRACE ≠ 0 ∧ entry.file.isSome) ∧
      (format &&& FUNCTION_TRACE ≠ 0 ∧ entry.function.isSome) then [' ']
  else []

/-! ## Sequences of registrations and unregistrations -/

/-- A call on the registration interface of the logger. -/
inductive Call
  | registerDevice (TDevice : DeviceKind) (level : Level) (format : Int)
  | unregisterDevice (handle : HandleRef)

/-- The logger after one call; `none` when the call is undefined. -/
def Logger.call (lg : Logger) : Call → Option Logger
  | .registerDevice TDevice level format => some (lg.registerDevice TDevice level format).2
  | .unregisterDevice handle => lg.unregisterDevice handle

/-- The logger after a sequence of calls, made one after the other. -/
def Logger.calls : Logger → List Call → Option Logger
  | lg, [] => some lg
  | lg, c :: cs => (lg.call c).bind fun lg' => Logger.calls lg' cs

/-- A call whose handle, if it has one, is identified by its value: the sentinel, or a
`unique_ptr` object of the caller holding a pointer, and not a reference into the vector. -/
def Call.byValue : Call → Prop
  | .registerDevice _ _ _ => True
  | .unregisterDevice (.object _) => True
  | .unregisterDevice .empty_handle => True
  | .unregisterDevice (.element _ _) => False

/-- The invariant of the device collection: every element is a non-empty handle to a device
whose `initialize()` returned true, allocated below `heap_top`, and no pointer occurs
twice. -/
def Logger.Valid (lg : Logger) : Prop :=
  (∀ h ∈ lg.devices_.elems, ∃ d : Device, h = some d ∧ d.kind.initializeOk = true ∧
    d.addr < lg.heap_top) ∧
  lg.pointers.Nodup

/-! ## The format engine: what `Device::write` does on the sink -/

theorem bytesOf_append (a b : List Op) : bytesOf (a ++ b) = bytesOf a ++ bytesOf b := by
  induction a with
  | nil => rfl
  | cons x xs ih => cases x <;> simp [bytesOf, ih]

theorem bytesOf_map_byte (s : List Char) : bytesOf (s.map Op.byte) = s := by
  induction s with
  | nil => rfl
  | cons c cs ih => simp [bytesOf, ih]

theorem Device.print_eq_emit (d : Device) (s : List Char) : d.print s = d.emit (s.map Op.byte) := rfl

theorem Device.emit_emit (d : Device) (a b : List Op) : (d.emit a).emit b = d.emit (a ++ b) := by
  simp [Device.emit, List.append_assoc]

theorem Device.emit_nil (d : Device) : d.emit [] = d := by
  simp [Device.emit]

theorem Device.writeLevel_eq (d : Device) (entry : Entry) :
    d.writeLevel entry = (d.levelTag entry).map d.print := by
  unfold Device.levelTag Device.writeLevel
  simp only [Device.clear]
  split
  · cases tableAt LEVEL_STR_FULL ((entry.level.toNat : Int) - 1) <;>
      simp [Device.print, Device.printChar, bytesOf_append, bytesOf_map_byte, bytesOf]
  · split
    · cases tableAt LEVEL_STR_LETTER ((entry.level.toNat : Int) - 1) <;>
        simp [Device.print, Device.printChar, bytesOf_append, bytesOf_map_byte, bytesOf]
    · split
      · cases tableAt LEVEL_STR_SHORT ((entry.level.toNat : Int) - 1) <;>
          simp [Device.print, Device.printChar, bytesOf_append, bytesOf_map_byte, bytesOf]
      · simp [Device.print, bytesOf]

theorem Device.writeTimestamp_eq (d : Device) (entry : Entry) :
    d.writeTimestamp entry = (d.timestampTag entry).map d.print := by
  unfold Device.timestampTag Device.writeTimestamp
  simp only [Device.clear]
  split
  · cases strftime 32 _ <;> simp [Device.print, bytesOf_map_byte]
  · split
    · simp [Device.print, bytesOf_append, bytesOf_map_byte, bytesOf]
    · split
      · cases strftime 10 _ <;> simp [Device.print, bytesOf_map_byte]
      · simp [Device.print, bytesOf]

theorem Device.writeFileFunctionTrace_eq (d : Device) (entry : Entry) :
    d.writeFileFunctionTrace entry = d.print (d.traceTag entry) := by
  unfold Device.traceTag Device.writeFileFunctionTrace
  simp only [Device.clear]
  rcases hf : entry.file with _ | file <;> rcases hg : entry.function with _ | function <;>
    by_cases h1 : d.format_ &&& FILE_TRACE = 0 <;>
    by_cases h2 : d.format_ &&& FUNCTION_TRACE = 0 <;>
    simp [h1, h2, Device.print, Device.printChar, Device.printNat, bytesOf_append,
      bytesOf_map_byte, bytesOf]

theorem Device.writeTaskTrace_eq (P : Platform) (d : Device) (entry : Entry) :
    d.writeTaskTrace P entry = d.print (d.taskTag P entry) := by
  unfold Device.taskTag Device.writeTaskTrace
  simp only [Device.clear]
  split <;> simp [Device.print, bytesOf_append, bytesOf_map_byte, bytesOf]

@[simp]
theorem Device.levelTag_emit (d : Device) (ops : List Op) (entry : Entry) :
    (d.emit ops).levelTag entry = d.levelTag entry := rfl

@[simp]
theorem Device.timestampTag_emit (d : Device) (ops : List Op) (entry : Entry) :
    (d.emit ops).timestampTag entry = d.timestampTag entry := rfl

@[simp]
theorem Device.traceTag_emit (d : Device) (ops : List Op) (entry : Entry) :
    (d.emit ops).traceTag entry = d.traceTag entry := rfl

@[simp]
theorem Device.taskTag_emit (P : Platform) (d : Device) (ops : List Op) (entry : Entry) :
    (d.emit ops).taskTag P entry = d.taskTag P entry := rfl

theorem Device.write_eq (P : Platform) (d : Device) (entry : Entry) :
    d.write P entry =
      if d.level_.toNat < entry.level.toNat then some d
      else (d.rendering P entry).map d.emit := by
  unfold Device.write
  split
  · rfl
  · have hs : d.writeStart entry =
        d.emit ([Op.writeStart] ++ (d.kind.writeStart entry).map Op.byte) := by
      simp [Device.writeStart, Device.print, Device.emit]
    rw [hs]
    simp only [Device.writeLevel_eq, Device.rendering, Device.levelTag_emit,
      Device.print_eq_emit, Device.emit_emit]
    cases hl : d.levelTag entry with
    | none => rfl
    | some level =>
      simp only [Option.map_some', Option.bind_eq_bind, Option.some_bind, bind,
        Device.writeTimestamp_eq, Device.timestampTag_emit, Device.print_eq_emit,
        Device.emit_emit]
      cases ht : d.timestampTag entry with
      | none => rfl
      | some timestamp =>
        simp only [Option.map_some', Option.some_bind, pure,
          Device.writeFileFunctionTrace_eq, Device.writeTaskTrace_eq, Device.print_eq_emit,
          Device.emit_emit, Device.traceTag_emit, Device.taskTag_emit]
        by_cases hz : d.format_ = 0 <;>
          simp [hz, separator, Device.emit, Device.println, Device.print, Device.flush,
            Device.writeEnd, List.append_assoc]

theorem Device.rendering_ne_nil (P : Platform) (d : Device) (entry : Entry) (ops : List Op)
    (h : d.rendering P entry = some ops) : ops ≠ [] := by
  unfold Device.rendering at h
  cases hl : d.levelTag entry with
  | none => simp [hl] at h
  | some level =>
    cases ht : d.timestampTag entry with
    | none => simp [hl, ht] at h
    | some timestamp =>
      simp [hl, ht] at h
      subst h
      simp

theorem Device.emit_eq_self (d : Device) (ops : List Op) : d.emit ops = d ↔ ops = [] := by
  constructor
  · intro h
    have h2 : (d.emit ops).sink = d.sink := by rw [h]
    simpa [Device.emit] using h2
  · rintro rfl
    exact d.emit_nil

theorem Device.write_eq_self_iff (P : Platform) (d : Device) (entry : Entry) :
    d.write P entry = some d ↔ d.level_.toNat < entry.level.toNat := by
  rw [Device.write_eq]
  constructor
  · intro h
    by_contra hlt
    rw [if_neg hlt] at h
    cases hr : d.rendering P entry with
    | none => simp [hr] at h
    | some ops =>
      simp only [hr, Option.map_some', Option.some.injEq] at h
      exact Device.rendering_ne_nil P d entry ops hr ((Device.emit_eq_self d ops).1 h)
  · intro h
    rw [if_pos h]

/-- C1: `Device::write` renders the entry exactly when the numeric level of the entry is at
most the threshold of the device, and otherwise leaves the sink untouched: no byte, no hook.
An entry at level `ALWAYS` is left out by every device whose threshold is not `ALWAYS`. -/
theorem C1_write_renders_iff_level_at_most_threshold (P : Platform) (d : Device)
    (entry : Entry) :
    (d.write P entry =
      if entry.level.toNat ≤ d.level_.toNat then (d.rendering P entry).map d.emit
      else some d) ∧
    (d.write P entry = some d ↔ d.level_.toNat < entry.level.toNat) ∧
    (d.write P { entry with level := Level.ALWAYS } = some d ↔ d.level_ ≠ Level.ALWAYS) := by
  refine ⟨?_, Device.write_eq_self_iff P d entry, ?_⟩
  · rw [Device.write_eq]
    by_cases h : d.level_.toNat < entry.level.toNat
    · rw [if_pos h, if_neg (by omega)]
    · rw [if_neg h, if_pos (by omega)]
  · rw [Device.write_eq_self_iff]
    cases hl : d.level_ <;> simp [Level.toNat]

/-! ## The golden output of the Basic example -/

theorem fmt_lld_two (n : Nat) (h : n < 100) :
    fmt_lld 2 (n : Int) = [Nat.digitChar (n / 10), Nat.digitChar (n % 10)] := by
  revert h
  revert n
  decide

theorem fmt_lld_two_int (n : Int) (h0 : 0 ≤ n) (h : n < 100) : fmt_lld 2 n = twoDigits n := by
  obtain ⟨k, rfl⟩ := Int.eq_ofNat_of_zero_le h0
  rw [fmt_lld_two k (by omega)]
  simp [twoDigits]

theorem strftime_T_gmtime_r (t : Int) : strftime_T (gmtime_r t) = utcClock t := by
  have h1 : (gmtime_r t).tm_hour = t / 3600 % 24 := by
    simp only [gmtime_r]; omega
  have h2 : (gmtime_r t).tm_min = t / 60 % 60 := by
    simp only [gmtime_r]; omega
  have h3 : (gmtime_r t).tm_sec = t % 60 := by
    simp only [gmtime_r]; omega
  unfold strftime_T utcClock
  rw [h1, h2, h3, fmt_lld_two_int _ (by omega) (by omega), fmt_lld_two_int _ (by omega) (by omega),
    fmt_lld_two_int _ (by omega) (by omega)]

theorem utcClock_length (t : Int) : (utcClock t).length = 8 := by
  simp [utcClock, twoDigits]

theorem cstr_hello :
    cstr (snprintf (List.replicate MAX_MSG_LEN NUL) MAX_MSG_LEN "Hello World!".toList) =
      "Hello World!".toList := by
  decide

theorem basic_device_write (P : Platform) (now : timeval) (cur : Option Nat) (a : Nat) :
    (Device.new a SerialLog Level.DEBUG
        ((LEVEL_LETTER ||| TIMESTAMP_SHORT ||| FILE_TRACE ||| FUNCTION_TRACE : Nat) : Int)).write P
      (Entry.new now cur Level.INFO none 0 none (some "Hello World!".toList)) =
    some ((Device.new a SerialLog Level.DEBUG
        ((LEVEL_LETTER ||| TIMESTAMP_SHORT ||| FILE_TRACE ||| FUNCTION_TRACE : Nat) : Int)).emit
      ([Op.writeStart] ++ ("[I] ".toList ++ utcClock now.tv_sec ++ " - Hello World!".toList ++
          P.newline).map Op.byte ++ [Op.flush, Op.writeEnd])) := by
  rw [Device.write_eq]
  have hfmt : (((LEVEL_LETTER ||| TIMESTAMP_SHORT ||| FILE_TRACE ||| FUNCTION_TRACE : Nat) : Int)
      % 256).toNat = 57 := by decide
  have hl : (Device.new a SerialLog Level.DEBUG
        ((LEVEL_LETTER ||| TIMESTAMP_SHORT ||| FILE_TRACE ||| FUNCTION_TRACE : Nat) : Int)).levelTag
      (Entry.new now cur Level.INFO none 0 none (some "Hello World!".toList)) =
      some "[I] ".toList := by
    simp only [Device.levelTag, Device.new, hfmt, Device.clear, Device.writeLevel, Entry.new]
    rfl
  have ht : (Device.new a SerialLog Level.DEBUG
        ((LEVEL_LETTER ||| TIMESTAMP_SHORT ||| FILE_TRACE ||| FUNCTION_TRACE : Nat) : Int)).timestampTag
      (Entry.new now cur Level.INFO none 0 none (some "Hello World!".toList)) =
      some (utcClock now.tv_sec ++ [' ']) := by
    simp only [Device.timestampTag, Device.new, hfmt, Device.clear, Device.writeTimestamp,
      Entry.new, strftime_T_gmtime_r, strftime]
    simp +decide [TIMESTAMP_FULL, TIMESTAMP_SIMPLE, TIMESTAMP_SHORT, utcClock_length,
      Device.print, bytesOf_map_byte, bytesOf_append, bytesOf]
    simp [utcClock, twoDigits]
  have hs : (Device.new a SerialLog Level.DEBUG
        ((LEVEL_LETTER ||| TIMESTAMP_SHORT ||| FILE_TRACE ||| FUNCTION_TRACE : Nat) : Int)).traceTag
      (Entry.new now cur Level.INFO none 0 none (some "Hello World!".toList)) = [] := by
    simp [Device.traceTag, Device.writeFileFunctionTrace, Entry.new, Device.clear, bytesOf]
  have hk : Device.taskTag P (Device.new a SerialLog Level.DEBUG
        ((LEVEL_LETTER ||| TIMESTAMP_SHORT ||| FILE_TRACE ||| FUNCTION_TRACE : Nat) : Int))
      (Entry.new now cur Level.INFO none 0 none (some "Hello World!".toList)) = [] := by
    simp only [Device.taskTag, Device.new, hfmt, Device.clear, Device.writeTaskTrace]
    simp +decide [TASK_TRACE, bytesOf]
  have hm : cstr (Entry.new now cur Level.INFO none 0 none (some "Hello World!".toList)).message =
      "Hello World!".toList := cstr_hello
  have hlev : ¬ (Device.new a SerialLog Level.DEBUG
        ((LEVEL_LETTER ||| TIMESTAMP_SHORT ||| FILE_TRACE ||| FUNCTION_TRACE : Nat) : Int)).level_.toNat
      < (Entry.new now cur Level.INFO none 0 none (some "Hello World!".toList)).level.toNat := by
    simp [Device.new, Entry.new, Level.toNat]
  rw [if_neg hlev, Device.rendering, hl, ht, hs, hk, hm]
  simp only [Device.new, hfmt, separator, SerialLog, DeviceKind.plain]
  simp +decide [List.append_assoc]

theorem basic_outputs (P : Platform) (now : timeval) (cur : Option Nat) :
    (Logger.loop P (Basic.setup now cur)).map Logger.outputs =
      some ["[I] ".toList ++ utcClock now.tv_sec ++ " - Hello World!".toList ++ P.newline] := by
  have hw := basic_device_write P now cur 1
  simp only [Basic.setup, Logger.registerDevice, Logger.new, Logger.logFormat, Logger.log,
    Logger.loop, xQueueSend, xQueueCreateStatic, xQueueReceive, DeviceVector.push_back,
    Device.new, SerialLog, DeviceKind.plain, ASYNC_LOG_QUEUE_LENGTH] at hw ⊢
  simp only [if_true, Nat.lt_irrefl, if_false, List.length_nil, Nat.zero_lt_succ, List.nil_append,
    Logger.forEachDevice, Option.bind_eq_bind, Option.some_bind, bind, hw, pure, Option.map_some',
    Logger.outputs, Device.emit, List.map, bytesOf_append, bytesOf_map_byte, bytesOf]
  simp [utcClock, twoDigits, bytesOf_append, bytesOf_map_byte, bytesOf]

/-- C3: for an entry that passes the level filter, `Device::write` performs on the sink, in
this order and whatever the format bitmask: the call of the `writeStart` hook with its
output, the level tag, the timestamp tag, the source trace tag, the task trace tag, the
separator, the message, the line terminator, the flush, and last the `writeEnd` hook. The
result is undefined exactly when one of the two tags that may be undefined is. -/
theorem C3_write_emits_steps_in_fixed_order (P : Platform) (d : Device) (entry : Entry)
    (hpass : entry.level.toNat ≤ d.level_.toNat) :
    d.write P entry =
      (d.levelTag entry).bind fun level =>
        (d.timestampTag entry).map fun timestamp =>
          d.emit ([Op.writeStart] ++
            (d.kind.writeStart entry ++ level ++ timestamp ++ d.traceTag entry ++
              d.taskTag P entry ++ separator d.format_ ++ cstr entry.message ++
              P.newline).map Op.byte ++
            [Op.flush, Op.writeEnd] ++ (d.kind.writeEnd entry).map Op.byte) := by
  rw [Device.write_eq, if_neg (by omega), Device.rendering]
  cases d.levelTag entry with
  | none => rfl
  | some level =>
    cases d.timestampTag entry with
    | none => rfl
    | some timestamp => rfl

/-- C3, at a device with all tags switched on and an entry with file, line and function. -/
theorem C3_write_emits_steps_in_fixed_order_witness :
    (bytesOf <$> Device.sink <$>
      (Device.new 1 SerialLog Level.DEBUG 127).write ⟨fun _ => some "main".toList, "\r\n".toList⟩
        (Entry.new ⟨0, 5000⟩ (some 7) Level.INFO (some "a.cpp".toList) 8 (some "f".toList)
          (some "Hi".toList))) =
      some "[INFO] 1970-01-01 00:00:00.005 [a.cpp:8 f] [task: main] - Hi\r\n".toList := by
  rw [C3_write_emits_steps_in_fixed_order _ _ _ (by decide)]
  decide

/-- C2 (amended): after `setup()` of the Basic example, one turn of the consumer makes the
device emit exactly `[I] HH:MM:SS - Hello World!` and the line terminator, `HH:MM:SS` being
the UTC clock time of the timestamp captured by the call; the entry built by
`log(Level, format)` carries no file, line or function, and no source group is printed. -/
theorem C2_golden_output_without_source_group (P : Platform) (now : timeval)
    (cur : Option Nat) :
    (Logger.loop P (Basic.setup now cur)).map Logger.outputs =
      some ["[I] ".toList ++ utcClock now.tv_sec ++ " - Hello World!".toList ++ P.newline] :=
  basic_outputs P now cur

/-- C2 as stated fails: at the epoch and with `\n` as line terminator the device emits
`[I] 00:00:00 - Hello World!`, which is the claimed line for no file, line and function. -/
theorem C2_golden_output_counterexample :
    (Logger.loop ⟨fun _ => none, ['\n']⟩ (Basic.setup ⟨0, 0⟩ none)).map Logger.outputs =
        some ["[I] 00:00:00 - Hello World!\n".toList] ∧
    ¬ ∃ (file function : List Char) (line : Nat),
      (Logger.loop ⟨fun _ => none, ['\n']⟩ (Basic.setup ⟨0, 0⟩ none)).map Logger.outputs =
        some ["[I] 00:00:00 [".toList ++ file ++ [':'] ++ Nat.toDigits 10 line ++ [' '] ++
          function ++ "] - Hello World!\n".toList] := by
  rw [basic_outputs]
  refine ⟨by decide, ?_⟩
  rintro ⟨file, function, line, h⟩
  have hlen := congrArg (fun o => o.map (fun l => l.map List.length)) h
  simp [utcClock, twoDigits] at hlen
  omega

/-! ## The consumer loop: one turn -/

theorem Device.write_frame (P : Platform) (d : Device) (entry : Entry) :
    d.write P entry = (d.clear.write P entry).map fun r => d.emit r.sink := by
  rw [Device.write_eq, Device.write_eq]
  have hr : d.clear.rendering P entry = d.rendering P entry := rfl
  rw [hr]
  by_cases h : d.level_.toNat < entry.level.toNat
  · have h2 : d.clear.level_.toNat < entry.level.toNat := h
    rw [if_pos h, if_pos h2]
    simp [Device.clear, Device.emit]
  · have h2 : ¬ d.clear.level_.toNat < entry.level.toNat := h
    rw [if_neg h, if_neg h2]
    cases d.rendering P entry with
    | none => rfl
    | some ops => simp [Device.clear, Device.emit]

theorem Device.write_some (P : Platform) (d d' : Device) (entry : Entry)
    (h : d.write P entry = some d') : d' = d.emit (d.output P entry) := by
  rw [Device.write_frame] at h
  unfold Device.output
  cases hc : d.clear.write P entry with
  | none => simp [hc] at h
  | some r =>
    simp only [hc, Option.map_some', Option.some.injEq] at h
    simp [← h]

theorem Device.output_eq_nil_iff (P : Platform) (d : Device) (entry : Entry)
    (hdef : (d.write P entry).isSome) :
    d.output P entry = [] ↔ d.level_.toNat < entry.level.toNat := by
  obtain ⟨d', hd'⟩ := Option.isSome_iff_exists.1 hdef
  have h1 := Device.write_some P d d' entry hd'
  rw [← Device.write_eq_self_iff P d entry, hd', ← Device.emit_eq_self, ← h1]
  constructor
  · intro h; rw [h]
  · intro h; exact (Option.some.inj h)

theorem Logger.forEachDevice_map_some (P : Platform) (entry : Entry) (ds : List Device)
    (r : List DeviceHandle × List Nat) :
    Logger.forEachDevice P entry (ds.map some) = some r ↔
      ∃ ds', List.Forall₂ (fun d d' => Device.write P d entry = some d') ds ds' ∧
        r = (ds'.map some, ds.map Device.addr) := by
  induction ds generalizing r with
  | nil =>
    simp only [List.map_nil, Logger.forEachDevice, Option.some.injEq, List.forall₂_nil_left_iff]
    constructor
    · rintro rfl; exact ⟨[], rfl, rfl⟩
    · rintro ⟨ds', rfl, rfl⟩; rfl
  | cons d ds ih =>
    simp only [List.map_cons, Logger.forEachDevice, Option.bind_eq_bind, Option.some_bind, bind,
      pure]
    cases hd : d.write P entry with
    | none =>
      simp only [Option.none_bind]
      refine ⟨fun h => (by cases h), ?_⟩
      rintro ⟨ds', h, -⟩
      cases h with
      | cons h1 _ => simp [hd] at h1
    | some d' =>
      simp only [Option.some_bind]
      cases hr : Logger.forEachDevice P entry (ds.map some) with
      | none =>
        simp only [Option.none_bind]
        refine ⟨fun h => (by cases h), ?_⟩
        rintro ⟨ds', h, -⟩
        cases h with
        | cons h1 h2 =>
          rename_i b l
          have := (ih (l.map some, ds.map Device.addr)).2 ⟨l, h2, rfl⟩
          simp [hr] at this
      | some r0 =>
        obtain ⟨ds0, hf, rfl⟩ := (ih r0).1 hr
        simp only [Option.some_bind, Option.some.injEq]
        constructor
        · rintro rfl
          exact ⟨d' :: ds0, List.Forall₂.cons hd hf, rfl⟩
        · rintro ⟨ds', h, rfl⟩
          cases h with
          | cons h1 h2 =>
            rename_i b l
            have hb : d' = b := Option.some.inj (hd.symm.trans h1)
            have hl := (ih (l.map some, ds.map Device.addr)).2 ⟨l, h2, rfl⟩
            rw [hr] at hl
            have hl2 := Option.some.inj hl
            simp only [Prod.mk.injEq] at hl2
            simp [hb, hl2.1]

theorem Logger.loop_eq_some_iff (P : Platform) (lg lg' : Logger) (q q' : Queue)
    (entry : Entry) (ds : List Device) (hq : lg.queue_ = some q)
    (hrecv : xQueueReceive q = some (entry, q')) (hds : lg.devices_.elems = ds.map some) :
    Logger.loop P lg = some lg' ↔
      ∃ ds', List.Forall₂ (fun d d' => Device.write P d entry = some d') ds ds' ∧
        lg' = { lg with queue_ := some q', entry_buf_ := entry,
                        devices_ := { lg.devices_ with elems := ds'.map some },
                        written := lg.written ++ ds.map Device.addr } := by
  unfold Logger.loop
  simp only [hq, hrecv, hds]
  cases hr : Logger.forEachDevice P entry (ds.map some) with
  | none =>
    simp only [Option.map_none']
    refine ⟨fun h => (by cases h), ?_⟩
    rintro ⟨ds', h, -⟩
    have := (Logger.forEachDevice_map_some P entry ds _).2 ⟨ds', h, rfl⟩
    simp [hr] at this
  | some r =>
    obtain ⟨ds0, hf, rfl⟩ := (Logger.forEachDevice_map_some P entry ds r).1 hr
    simp only [Option.map_some', Option.some.injEq]
    constructor
    · rintro rfl
      exact ⟨ds0, hf, rfl⟩
    · rintro ⟨ds', h, rfl⟩
      have := (Logger.forEachDevice_map_some P entry ds (ds'.map some, ds.map Device.addr)).2
        ⟨ds', h, rfl⟩
      rw [hr] at this
      have h2 := Option.some.inj this
      simp only [Prod.mk.injEq] at h2
      simp [h2.1]

theorem plain_write_format_zero (P : Platform) (a : Nat) (level : Level) (entry : Entry)
    (h : entry.level.toNat ≤ level.toNat) :
    (Device.new a SerialLog level 0).write P entry =
      some ((Device.new a SerialLog level 0).emit
        ([Op.writeStart] ++ (cstr entry.message ++ P.newline).map Op.byte ++
          [Op.flush, Op.writeEnd])) := by
  rw [Device.write_eq, if_neg (by simpa [Device.new] using h)]
  simp +decide [Device.rendering, Device.levelTag, Device.timestampTag, Device.traceTag,
    Device.taskTag, Device.writeLevel, Device.writeTimestamp, Device.writeFileFunctionTrace,
    Device.writeTaskTrace, Device.new, Device.clear, separator, SerialLog, DeviceKind.plain,
    bytesOf, LEVEL_FULL, LEVEL_LETTER, LEVEL_SHORT, TIMESTAMP_FULL, TIMESTAMP_SIMPLE,
    TIMESTAMP_SHORT, FILE_TRACE, FUNCTION_TRACE, TASK_TRACE]

theorem twoDevices_error_debug (P : Platform) (entry : Entry) :
    (Logger.loop P (twoDevices Level.ERROR Level.DEBUG { entry with level := Level.DEBUG })).map
      Logger.outputs = some [[], cstr entry.message ++ P.newline] := by
  have h1 := (Device.write_eq_self_iff P (Device.new 1 SerialLog Level.ERROR 0)
    { entry with level := Level.DEBUG }).2 (by simp [Device.new, Level.toNat])
  have h2 := plain_write_format_zero P 3 Level.DEBUG { entry with level := Level.DEBUG }
    (by simp [Level.toNat])
  simp only [twoDevices, twoRegistered, Logger.registerDevice, Logger.new, Logger.log, Logger.loop, xQueueSend,
    xQueueCreateStatic, xQueueReceive, DeviceVector.push_back, Device.new, SerialLog,
    DeviceKind.plain, ASYNC_LOG_QUEUE_LENGTH] at h1 h2 ⊢
  simp only [if_true, Nat.lt_irrefl, if_false, List.length_nil, Nat.zero_lt_succ,
    List.nil_append, List.length_cons, List.cons_append,
    Logger.forEachDevice, Option.bind_eq_bind, Option.some_bind, bind, h1, h2, pure,
    Option.map_some', Logger.outputs, Device.emit, List.map, bytesOf_append, bytesOf_map_byte,
    bytesOf]
  simp [bytesOf_append, bytesOf_map_byte, bytesOf]

theorem twoDevices_debug_error (P : Platform) (entry : Entry) :
    (Logger.loop P (twoDevices Level.DEBUG Level.ERROR { entry with level := Level.DEBUG })).map
      Logger.outputs = some [cstr entry.message ++ P.newline, []] := by
  have h1 := (Device.write_eq_self_iff P (Device.new 3 SerialLog Level.ERROR 0)
    { entry with level := Level.DEBUG }).2 (by simp [Device.new, Level.toNat])
  have h2 := plain_write_format_zero P 1 Level.DEBUG { entry with level := Level.DEBUG }
    (by simp [Level.toNat])
  simp only [twoDevices, twoRegistered, Logger.registerDevice, Logger.new, Logger.log, Logger.loop, xQueueSend,
    xQueueCreateStatic, xQueueReceive, DeviceVector.push_back, Device.new, SerialLog,
    DeviceKind.plain, ASYNC_LOG_QUEUE_LENGTH] at h1 h2 ⊢
  simp only [if_true, Nat.lt_irrefl, if_false, List.length_nil, Nat.zero_lt_succ,
    List.nil_append, List.length_cons, List.cons_append,
    Logger.forEachDevice, Option.bind_eq_bind, Option.some_bind, bind, h1, h2, pure,
    Option.map_some', Logger.outputs, Device.emit, List.map, bytesOf_append, bytesOf_map_byte,
    bytesOf]
  simp [bytesOf_append, bytesOf_map_byte, bytesOf]

/-- C4: one turn of the consumer loop that receives an entry calls `write` once on every
registered device, in registration order (`written` grows by the addresses of the devices in
that order, and the devices afterwards are, position by position, the results of `write`);
a device produces output for the entry exactly when the level of the entry is at most its
threshold. With two devices of format 0 at the levels `ERROR` and `DEBUG`, in either order,
a `DEBUG` entry leaves the output of the `ERROR` device empty and makes the output of the
`DEBUG` device the message followed by the line terminator. -/
theorem C4_loop_writes_each_device_once_in_registration_order (P : Platform) (lg : Logger)
    (q q' : Queue) (entry : Entry) (ds : List Device) (hq : lg.queue_ = some q)
    (hrecv : xQueueReceive q = some (entry, q'))
    (hds : lg.devices_.elems = ds.map some) :
    (∀ lg', Logger.loop P lg = some lg' ↔
      ∃ ds', List.Forall₂ (fun d d' => Device.write P d entry = some d') ds ds' ∧
        lg' = { lg with queue_ := some q', entry_buf_ := entry,
                        devices_ := { lg.devices_ with elems := ds'.map some },
                        written := lg.written ++ ds.map Device.addr }) ∧
    (∀ d d', Device.write P d entry = some d' →
      d'.sink = d.sink ++ d.output P entry ∧
      (d.output P entry ≠ [] ↔ entry.level.toNat ≤ d.level_.toNat)) ∧
    (∀ e : Entry,
      (Logger.loop P (twoDevices Level.ERROR Level.DEBUG { e with level := Level.DEBUG })).map
        Logger.outputs = some [[], cstr e.message ++ P.newline]) ∧
    (∀ e : Entry,
      (Logger.loop P (twoDevices Level.DEBUG Level.ERROR { e with level := Level.DEBUG })).map
        Logger.outputs = some [cstr e.message ++ P.newline, []]) := by
  refine ⟨fun lg' => Logger.loop_eq_some_iff P lg lg' q q' entry ds hq hrecv hds, ?_,
    twoDevices_error_debug P, twoDevices_debug_error P⟩
  intro d d' h
  refine ⟨?_, ?_⟩
  · rw [Device.write_some P d d' entry h]; rfl
  · rw [Ne, Device.output_eq_nil_iff P d entry (by simp [h])]
    omega

/-- C4, at the logger of the two-device scenario: the turn is defined, both devices are
written once, the `ERROR` device first, and only the `DEBUG` device has output. -/
theorem C4_loop_writes_each_device_once_in_registration_order_witness :
    ∃ lg', Logger.loop ⟨fun _ => none, ['\n']⟩
        (twoDevices Level.ERROR Level.DEBUG
          (Entry.new ⟨0, 0⟩ none Level.DEBUG none 0 none (some "x".toList))) = some lg' ∧
      lg'.written = [1, 3] ∧ lg'.outputs = [[], ['x', '\n']] := by
  have h := (C4_loop_writes_each_device_once_in_registration_order ⟨fun _ => none, ['\n']⟩
    (twoDevices Level.ERROR Level.DEBUG
      (Entry.new ⟨0, 0⟩ none Level.DEBUG none 0 none (some "x".toList)))
    ⟨32, [Entry.new ⟨0, 0⟩ none Level.DEBUG none 0 none (some "x".toList)]⟩ ⟨32, []⟩
    (Entry.new ⟨0, 0⟩ none Level.DEBUG none 0 none (some "x".toList))
    [Device.new 1 SerialLog Level.ERROR 0, Device.new 3 SerialLog Level.DEBUG 0]
    rfl rfl rfl).1
  refine ⟨_, (h _).2 ⟨[Device.new 1 SerialLog Level.ERROR 0,
    (Device.new 3 SerialLog Level.DEBUG 0).emit ([Op.writeStart] ++ ['x', '\n'].map Op.byte ++
      [Op.flush, Op.writeEnd])], ?_, rfl⟩, ?_, ?_⟩
  · refine List.Forall₂.cons ?_ (List.Forall₂.cons ?_ List.Forall₂.nil)
    · exact (Device.write_eq_self_iff _ _ _).2 (by decide)
    · rw [plain_write_format_zero _ _ _ _ (by decide)]
      rfl
  · rfl
  · rfl

/-! ## Registration and the handles -/

theorem Logger.registerDevice_failed (lg : Logger) (TDevice : DeviceKind) (level : Level)
    (format : Int) (h : TDevice.initializeOk = false) :
    lg.registerDevice TDevice level format = (HandleRef.empty_handle, lg) := by
  simp [Logger.registerDevice, Device.new, h]

/-- C5: when `initialize()` of the device returns false, `registerDevice` returns the
sentinel `empty_handle`, which holds no device, and the logger is left exactly as it was: the
same devices in the same order; so every later run of the consumer is the run it would have
been without the call, and writes to the registered devices only. -/
theorem C5_failed_registration_changes_nothing (lg : Logger) (TDevice : DeviceKind)
    (level : Level) (format : Int) (hinit : TDevice.initializeOk = false) :
    (lg.registerDevice TDevice level format).1 = HandleRef.empty_handle ∧
    (lg.registerDevice TDevice level format).2 = lg ∧
    (lg.registerDevice TDevice level format).2.devices_.elems = lg.devices_.elems ∧
    (lg.registerDevice TDevice level format).2.read (lg.registerDevice TDevice level format).1 =
      some none ∧
    (∀ P n, Logger.loopN P n (lg.registerDevice TDevice level format).2 = Logger.loopN P n lg) := by
  rw [Logger.registerDevice_failed lg TDevice level format hinit]
  exact ⟨rfl, rfl, rfl, rfl, fun _ _ => rfl⟩

/-- C5, at a fresh logger and a device class whose `initialize()` fails. -/
theorem C5_failed_registration_changes_nothing_witness :
    (Logger.new.registerDevice (DeviceKind.plain false) Level.DEBUG 0).1 =
        HandleRef.empty_handle ∧
      (Logger.new.registerDevice (DeviceKind.plain false) Level.DEBUG 0).2.devices_.elems = [] :=
  ⟨(C5_failed_registration_changes_nothing Logger.new (DeviceKind.plain false) Level.DEBUG 0
      rfl).1,
    (C5_failed_registration_changes_nothing Logger.new (DeviceKind.plain false) Level.DEBUG 0
      rfl).2.2.1⟩

/-- C6: when `initialize()` of the device returns true, `registerDevice` leaves the
collection as it was with one device appended at the end; that device has the given level as
its threshold and the given format in its eight-bit field (the format itself when it lies in
0..255), and an empty sink; the returned handle is not the sentinel and refers to the last
element, which holds the new device. -/
theorem C6_registration_appends_one_device (lg : Logger) (TDevice : DeviceKind) (level : Level)
    (format : Int) (hinit : TDevice.initializeOk = true) :
    (lg.registerDevice TDevice level format).2.devices_.elems =
      lg.devices_.elems ++ [some (Device.new lg.heap_top TDevice level format)] ∧
    (Device.new lg.heap_top TDevice level format).level_ = level ∧
    ((Device.new lg.heap_top TDevice level format).format_ : Int) = format % 256 ∧
    (0 ≤ format ∧ format < 256 →
      ((Device.new lg.heap_top TDevice level format).format_ : Int) = format) ∧
    (Device.new lg.heap_top TDevice level format).kind = TDevice ∧
    (lg.registerDevice TDevice level format).1 ≠ HandleRef.empty_handle ∧
    (lg.registerDevice TDevice level format).1 =
      HandleRef.element (lg.registerDevice TDevice level format).2.devices_.buffer
        lg.devices_.elems.length ∧
    (lg.registerDevice TDevice level format).2.read (lg.registerDevice TDevice level format).1 =
      some (some lg.heap_top) ∧
    (lg.registerDevice TDevice level format).2.queue_ = lg.queue_ := by
  have hfmt : (((format % 256).toNat : Nat) : Int) = format % 256 :=
    Int.toNat_of_nonneg (Int.emod_nonneg _ (by decide))
  refine ⟨?_, rfl, hfmt, ?_, rfl, ?_, ?_, ?_, ?_⟩
  · unfold Logger.registerDevice DeviceVector.push_back
    simp only [Device.new, hinit, if_true]
    split <;> rfl
  · rintro ⟨h0, h1⟩
    simp only [Device.new, hfmt]
    exact Int.emod_eq_of_lt h0 h1
  · unfold Logger.registerDevice
    simp only [Device.new, hinit, if_true]
    exact fun h => HandleRef.noConfusion h
  · unfold Logger.registerDevice DeviceVector.push_back
    simp only [Device.new, hinit, if_true]
    split <;> simp
  · unfold Logger.registerDevice DeviceVector.push_back
    simp only [Device.new, hinit, if_true]
    split <;> simp [Logger.read, DeviceHandle.get]
  · unfold Logger.registerDevice
    simp only [Device.new, hinit, if_true]

/-- C6, at a logger that already holds one device. -/
theorem C6_registration_appends_one_device_witness :
    ((Logger.new.registerDevice SerialLog Level.ERROR 0).2.registerDevice SerialLog Level.DEBUG
        57).2.pointers = [some 1, some 3] ∧
      ((Logger.new.registerDevice SerialLog Level.ERROR 0).2.registerDevice SerialLog Level.DEBUG
        57).2.read ((Logger.new.registerDevice SerialLog Level.ERROR 0).2.registerDevice SerialLog
          Level.DEBUG 57).1 = some (some 3) := by
  have h := C6_registration_appends_one_device
    (Logger.new.registerDevice SerialLog Level.ERROR 0).2 SerialLog Level.DEBUG 57 rfl
  refine ⟨?_, h.2.2.2.2.2.2.2.1⟩
  rw [Logger.pointers, h.1]
  rfl

/-- C7 fails on the code. After four registrations the third device is unregistered and a
fifth registered; `unregisterDevice` with the handle returned for the fourth device, still
registered at address 7, then erases the fifth device (address 9) and keeps the fourth: the
handle is a reference to a slot of the vector, and the slot now holds another device. And
after two registrations the handle returned for the first device refers into the array that
the second registration replaced: the call with it is undefined. -/
theorem C7_handle_of_registered_device_erases_another :
    staleSlotScenario.map Logger.pointers = some [some 1, some 3, some 7] ∧
    movedArrayScenario.map Logger.pointers = none :=
  ⟨rfl, rfl⟩

/-- C8 fails on the code for a handle whose device is gone. A device is registered and
unregistered, a second device registered (address 3); `unregisterDevice` with the handle of
the first device then erases the second: the collection is left empty. With the sentinel
`empty_handle` the call does leave every logger as it is. -/
theorem C8_handle_of_removed_device_erases_another :
    reusedSlotScenario.map Logger.pointers = some [] ∧
    (∀ lg : Logger, lg.unregisterDevice HandleRef.empty_handle = some lg) :=
  ⟨rfl, fun _ => rfl⟩

/-! ## The bounded queue -/

theorem Logger.submit_queue (lg : Logger) (q : Queue) (s : Submission) (hq : lg.queue_ = some q) :
    lg.submit s = { lg with queue_ := some (xQueueSend q s.entry).1 } := by
  cases s with
  | task entry => simp [Logger.submit, Logger.log, hq, Submission.entry]
  | isr entry waiting =>
    simp only [Logger.submit, Logger.logISR, hq, Submission.entry, xQueueSendFromISR, xQueueSend]
    split <;> rfl

theorem xQueueSend_items (q : Queue) (entry : Entry) (h : q.items.length ≤ q.uxLength) :
    (xQueueSend q entry).1 = { q with items := (q.items ++ [entry]).take q.uxLength } := by
  unfold xQueueSend
  split
  · rename_i hlt
    have : (q.items ++ [entry]).length ≤ q.uxLength := by simp; omega
    simp [List.take_of_length_le this]
  · have hle : q.uxLength ≤ q.items.length := by omega
    simp [List.take_append_of_le_length hle, List.take_of_length_le h]

theorem take_take_append {α : Type} (c : Nat) (xs ys : List α) :
    (xs.take c ++ ys).take c = (xs ++ ys).take c := by
  rcases Nat.le_total xs.length c with h | h
  · rw [List.take_of_length_le h]
  · rw [List.take_append_of_le_length (by simp [List.length_take, h]),
      List.take_append_of_le_length h, List.take_take, Nat.min_self]

theorem Logger.submitAll_queue (subs : List Submission) (lg : Logger) (q : Queue)
    (hq : lg.queue_ = some q) (h : q.items.length ≤ q.uxLength) :
    lg.submitAll subs =
      { lg with
        queue_ := some ⟨q.uxLength, (q.items ++ subs.map Submission.entry).take q.uxLength⟩ } := by
  induction subs generalizing lg q with
  | nil =>
    simp only [Logger.submitAll, List.foldl_nil, List.map_nil, List.append_nil,
      List.take_of_length_le h]
    cases lg
    simp_all
  | cons s subs ih =>
    have h1 := Logger.submit_queue lg q s hq
    have h2 := xQueueSend_items q s.entry h
    have ih' := ih (lg.submit s) (xQueueSend q s.entry).1 (by rw [h1])
      (by rw [h2]; simp [List.length_take])
    simp only [Logger.submitAll, List.foldl_cons] at ih' ⊢
    rw [ih', h1, h2]
    simp only [List.map_cons, take_take_append, List.append_assoc, List.singleton_append]

/-- C9: on a logger whose queue is the empty queue of `ASYNC_LOG_QUEUE_LENGTH` = 32 slots that
the constructor creates, after any sequence of submissions by `log(Entry)` and
`logISR(Entry)`, with no turn of the consumer in between, the queue holds the first
min(n, 32) entries in submission order and nothing else of the logger has changed. A
submission to a full queue leaves the logger as it is, and the functions have no error to
return. `logISR` leaves the logger as `log` does. -/
theorem C9_burst_keeps_first_capacity_entries (lg : Logger) (subs : List Submission)
    (hq : lg.queue_ = some (xQueueCreateStatic ASYNC_LOG_QUEUE_LENGTH)) :
    lg.submitAll subs =
      { lg with
        queue_ := some ⟨32, (subs.map Submission.entry).take (min subs.length 32)⟩ } ∧
    (∀ (lg' : Logger) (q : Queue) (s : Submission),
      lg'.queue_ = some q ∧ q.uxLength ≤ q.items.length → lg'.submit s = lg') ∧
    (∀ (lg' : Logger) (entry : Entry) (waiting : Bool),
      (lg'.logISR entry waiting).1 = lg'.log entry) ∧
    Logger.new.queue_ = some (xQueueCreateStatic ASYNC_LOG_QUEUE_LENGTH) := by
  refine ⟨?_, ?_, ?_, rfl⟩
  · rw [Logger.submitAll_queue subs lg _ hq (by simp [xQueueCreateStatic])]
    have : (subs.map Submission.entry).take (min subs.length 32) =
        (subs.map Submission.entry).take 32 := by
      rcases Nat.le_total subs.length 32 with h | h
      · rw [Nat.min_eq_left h, List.take_of_length_le (by simp),
          List.take_of_length_le (by simpa using h)]
      · rw [Nat.min_eq_right h]
    simp [xQueueCreateStatic, ASYNC_LOG_QUEUE_LENGTH, this]
  · rintro lg' q s ⟨h1, h2⟩
    rw [Logger.submit_queue lg' q s h1]
    have : (xQueueSend q s.entry).1 = q := by
      unfold xQueueSend
      rw [if_neg (by omega)]
    rw [this, ← h1]
  · intro lg' entry waiting
    cases hq' : lg'.queue_ with
    | none => simp [Logger.logISR, Logger.log, hq']
    | some q =>
      simp only [Logger.logISR, Logger.log, hq', xQueueSendFromISR, xQueueSend]
      split <;> rfl

/-- C9, at a fresh logger and a burst of 40 submissions numbered by their line, by `log` and
`logISR` in turn: the queue holds the entries 0 to 31. -/
theorem C9_burst_keeps_first_capacity_entries_witness :
    (Logger.new.submitAll ((List.range 40).map fun i =>
        if i % 2 = 0 then Submission.task { Entry.empty with line := i }
        else Submission.isr { Entry.empty with line := i } true)).queue_.map
      (fun q => q.items.map Entry.line) = some (List.range 32) := by
  rw [(C9_burst_keeps_first_capacity_entries Logger.new _ rfl).1]
  decide

/-! ## The consumer loop: FIFO delivery -/

theorem Device.write_addr (P : Platform) (d d' : Device) (entry : Entry)
    (h : d.write P entry = some d') : d'.addr = d.addr := by
  rw [Device.write_some P d d' entry h]; rfl

theorem Device.output_emit (P : Platform) (d : Device) (ops : List Op) (entry : Entry) :
    (d.emit ops).output P entry = d.output P entry := rfl

theorem Device.writeAll_some (P : Platform) (entries : List Entry) (d d' : Device)
    (h : Device.writeAll P d entries = some d') :
    d' = d.emit (entries.flatMap fun entry => d.output P entry) := by
  induction entries generalizing d with
  | nil =>
    simp only [Device.writeAll, Option.some.injEq] at h
    simp [← h, Device.emit_nil]
  | cons entry entries ih =>
    simp only [Device.writeAll] at h
    cases hw : d.write P entry with
    | none => simp [hw] at h
    | some d1 =>
      simp only [hw, Option.some_bind] at h
      have h1 := Device.write_some P d d1 entry hw
      have h2 := ih d1 h
      rw [h2, h1]
      simp only [Device.output_emit, Device.emit_emit, List.flatMap_cons]

theorem forall₂_write_addr (P : Platform) (entry : Entry) (ds ds' : List Device)
    (h : List.Forall₂ (fun d d' => Device.write P d entry = some d') ds ds') :
    ds'.map Device.addr = ds.map Device.addr := by
  induction h with
  | nil => rfl
  | cons h1 _ ih => simp [ih, Device.write_addr P _ _ entry h1]

theorem forall₂_writeAll_cons (P : Platform) (entry : Entry) (entries : List Entry)
    (ds ds' : List Device) :
    List.Forall₂ (fun d d' => Device.writeAll P d (entry :: entries) = some d') ds ds' ↔
      ∃ ds1, List.Forall₂ (fun d d1 => Device.write P d entry = some d1) ds ds1 ∧
        List.Forall₂ (fun d1 d' => Device.writeAll P d1 entries = some d') ds1 ds' := by
  constructor
  · intro h
    induction h with
    | nil => exact ⟨[], List.Forall₂.nil, List.Forall₂.nil⟩
    | @cons d d' l l' h1 _ ih =>
      obtain ⟨ds1, ha, hb⟩ := ih
      simp only [Device.writeAll] at h1
      cases hw : d.write P entry with
      | none => simp [hw] at h1
      | some d1 =>
        simp only [hw, Option.some_bind] at h1
        exact ⟨d1 :: ds1, List.Forall₂.cons hw ha, List.Forall₂.cons h1 hb⟩
  · rintro ⟨ds1, ha, hb⟩
    induction ha generalizing ds' with
    | nil =>
      cases hb
      exact List.Forall₂.nil
    | cons h1 _ ih =>
      cases hb with
      | cons h2 hb' =>
        refine List.Forall₂.cons ?_ (ih _ hb')
        simp [Device.writeAll, h1, h2]

theorem getLast?_getD_cons {α : Type} (e x : α) (es : List α) :
    (e :: es).getLast?.getD x = es.getLast?.getD e := by
  cases es with
  | nil => simp
  | cons h t =>
    rw [List.getLast?_cons_cons]
    cases hl : (h :: t).getLast? with
    | none => simp at hl
    | some y => rfl

theorem Logger.loopN_drains (P : Platform) (entries : List Entry) (lg lg' : Logger) (q : Queue)
    (ds : List Device) (hq : lg.queue_ = some q) (hitems : q.items = entries)
    (hds : lg.devices_.elems = ds.map some) :
    Logger.loopN P entries.length lg = some lg' ↔
      ∃ ds', List.Forall₂ (fun d d' => Device.writeAll P d entries = some d') ds ds' ∧
        lg' = { lg with queue_ := some ⟨q.uxLength, []⟩,
                        entry_buf_ := entries.getLast?.getD lg.entry_buf_,
                        devices_ := { lg.devices_ with elems := ds'.map some },
                        written := lg.written ++ entries.flatMap fun _ => ds.map Device.addr } := by
  induction entries generalizing lg lg' q ds with
  | nil =>
    have hlg : lg = { lg with queue_ := some ⟨q.uxLength, []⟩,
                              entry_buf_ := lg.entry_buf_,
                              devices_ := { lg.devices_ with elems := ds.map some },
                              written := lg.written ++ [] } := by
      obtain ⟨queue_, entry_buf_, ⟨buffer, capacity, elems⟩, heap_top, written⟩ := lg
      cases q
      simp_all
    simp only [List.length_nil, Logger.loopN, Option.some.injEq, Device.writeAll,
      List.getLast?_nil, Option.getD_none, List.flatMap_nil]
    constructor
    · rintro rfl
      refine ⟨ds, ?_, hlg⟩
      clear hlg hds
      induction ds with
      | nil => exact List.Forall₂.nil
      | cons d ds ih => exact List.Forall₂.cons rfl ih
    · rintro ⟨ds', hf, rfl⟩
      have : ds = ds' := by
        clear hlg hds
        induction hf with
        | nil => rfl
        | cons h1 _ ih => rw [h1, ih]
      subst this
      exact hlg
  | cons entry entries ih =>
    have hrecv : xQueueReceive q = some (entry, ⟨q.uxLength, entries⟩) := by
      simp [xQueueReceive, hitems]
    simp only [List.length_cons, Logger.loopN, forall₂_writeAll_cons]
    constructor
    · intro h
      cases hl : Logger.loop P lg with
      | none => simp [hl] at h
      | some lg1 =>
        simp only [hl, Option.some_bind] at h
        obtain ⟨ds1, hf1, rfl⟩ := (Logger.loop_eq_some_iff P lg lg1 q _ entry ds hq hrecv hds).1 hl
        obtain ⟨ds', hf2, rfl⟩ := (ih _ lg' ⟨q.uxLength, entries⟩ ds1 rfl rfl rfl).1 h
        refine ⟨ds', ⟨ds1, hf1, hf2⟩, ?_⟩
        simp only [forall₂_write_addr P entry ds ds1 hf1, List.flatMap_cons, List.append_assoc,
          getLast?_getD_cons]
    · rintro ⟨ds', ⟨ds1, hf1, hf2⟩, rfl⟩
      have hl := (Logger.loop_eq_some_iff P lg _ q _ entry ds hq hrecv hds).2 ⟨ds1, hf1, rfl⟩
      rw [hl, Option.some_bind]
      refine (ih _ _ ⟨q.uxLength, entries⟩ ds1 rfl rfl rfl).2 ⟨ds', hf2, ?_⟩
      simp only [forall₂_write_addr P entry ds ds1 hf1, List.flatMap_cons, List.append_assoc,
        getLast?_getD_cons]

theorem Logger.logAll_queue (entries : List Entry) (lg : Logger) (q : Queue)
    (hq : lg.queue_ = some q) (hempty : q.items = []) (hacc : entries.length ≤ q.uxLength) :
    lg.logAll entries = { lg with queue_ := some ⟨q.uxLength, entries⟩ } := by
  have h1 : lg.logAll entries = lg.submitAll (entries.map Submission.task) := by
    simp only [Logger.logAll, Logger.submitAll, List.foldl_map]
    rfl
  have h2 : (entries.map Submission.task).map Submission.entry = entries := by
    simp [Function.comp_def, Submission.entry]
  rw [h1, Logger.submitAll_queue _ lg q hq (by simp [hempty]), h2, hempty, List.nil_append,
    List.take_of_length_le hacc]

theorem Device.output_filtered (P : Platform) (d : Device) (entry : Entry)
    (h : d.level_.toNat < entry.level.toNat) : d.output P entry = [] := by
  have h2 : d.clear.write P entry = some d.clear :=
    (Device.write_eq_self_iff P d.clear entry).2 h
  unfold Device.output
  rw [h2]
  rfl

theorem forall₂_of_forall_exists {α β : Type} (R : α → β → Prop) (l : List α)
    (h : ∀ a ∈ l, ∃ b, R a b) : ∃ l', List.Forall₂ R l l' := by
  induction l with
  | nil => exact ⟨[], List.Forall₂.nil⟩
  | cons a l ih =>
    obtain ⟨b, hb⟩ := h a (List.mem_cons_self a l)
    obtain ⟨l', hl'⟩ := ih fun x hx => h x (List.mem_cons_of_mem a hx)
    exact ⟨b :: l', List.Forall₂.cons hb hl'⟩

/-- C10: FIFO delivery. Entries logged one after the other to a logger with an empty queue
that has room for all of them are all accepted, in order; the consumer, running one turn an
entry over an unchanged collection of devices, then leaves every device as that device is
after `write` for the first entry, then the second, and so on: its sink has grown by the
concatenation, in submission order, of its outputs for the entries, an entry above its
threshold contributing nothing. The run is defined exactly when every one of these writes
is, and the devices were written in registration order, once an entry. -/
theorem C10_fifo_delivery_to_every_device (P : Platform) (lg : Logger) (q : Queue)
    (ds : List Device) (entries : List Entry) (hq : lg.queue_ = some q)
    (hempty : q.items = []) (hacc : entries.length ≤ q.uxLength)
    (hds : lg.devices_.elems = ds.map some) :
    (lg.logAll entries).queue_ = some ⟨q.uxLength, entries⟩ ∧
    (∀ lg', Logger.loopN P entries.length (lg.logAll entries) = some lg' ↔
      ∃ ds', List.Forall₂ (fun d d' => Device.writeAll P d entries = some d') ds ds' ∧
        lg' = { lg with queue_ := some ⟨q.uxLength, []⟩,
                        entry_buf_ := entries.getLast?.getD lg.entry_buf_,
                        devices_ := { lg.devices_ with elems := ds'.map some },
                        written := lg.written ++ entries.flatMap fun _ => ds.map Device.addr }) ∧
    (∀ d d', Device.writeAll P d entries = some d' →
      d'.sink = d.sink ++ entries.flatMap fun entry => d.output P entry) ∧
    (∀ (d : Device) (entry : Entry),
      d.level_.toNat < entry.level.toNat → d.output P entry = []) ∧
    ((∀ d ∈ ds, ∃ d', Device.writeAll P d entries = some d') →
      ∃ lg', Logger.loopN P entries.length (lg.logAll entries) = some lg') := by
  have hlog := Logger.logAll_queue entries lg q hq hempty hacc
  have hiff : ∀ lg', Logger.loopN P entries.length (lg.logAll entries) = some lg' ↔
      ∃ ds', List.Forall₂ (fun d d' => Device.writeAll P d entries = some d') ds ds' ∧
        lg' = { lg with queue_ := some ⟨q.uxLength, []⟩,
                        entry_buf_ := entries.getLast?.getD lg.entry_buf_,
                        devices_ := { lg.devices_ with elems := ds'.map some },
                        written := lg.written ++ entries.flatMap fun _ => ds.map Device.addr } := by
    intro lg'
    rw [hlog]
    exact Logger.loopN_drains P entries _ lg' ⟨q.uxLength, entries⟩ ds rfl rfl hds
  refine ⟨by rw [hlog], hiff, ?_, Device.output_filtered P, ?_⟩
  · intro d d' h
    rw [Device.writeAll_some P entries d d' h]
    rfl
  · intro hdef
    obtain ⟨ds', hds'⟩ := forall₂_of_forall_exists _ ds hdef
    exact ⟨_, (hiff _).2 ⟨ds', hds', rfl⟩⟩

/-- C10, at two devices of format 0 with thresholds `ERROR` and `DEBUG` and the entries
`a` (DEBUG), `b` (ERROR), `c` (DEBUG): all three are queued in order, the run of three turns
is defined, the `ERROR` device has printed `b` and the `DEBUG` device `a`, `b`, `c`. -/
theorem C10_fifo_delivery_to_every_device_witness :
    ((twoRegistered Level.ERROR Level.DEBUG).logAll
        [plainEntry Level.DEBUG "a", plainEntry Level.ERROR "b",
          plainEntry Level.DEBUG "c"]).queue_ =
      some ⟨32, [plainEntry Level.DEBUG "a", plainEntry Level.ERROR "b",
        plainEntry Level.DEBUG "c"]⟩ ∧
    (∃ lg', Logger.loopN ⟨fun _ => none, ['\n']⟩ 3
      ((twoRegistered Level.ERROR Level.DEBUG).logAll
        [plainEntry Level.DEBUG "a", plainEntry Level.ERROR "b",
          plainEntry Level.DEBUG "c"]) = some lg') ∧
    (Logger.loopN ⟨fun _ => none, ['\n']⟩ 3
      ((twoRegistered Level.ERROR Level.DEBUG).logAll
        [plainEntry Level.DEBUG "a", plainEntry Level.ERROR "b",
          plainEntry Level.DEBUG "c"])).map Logger.outputs =
      some ["b\n".toList, "a\nb\nc\n".toList] := by
  have h := C10_fifo_delivery_to_every_device ⟨fun _ => none, ['\n']⟩
    (twoRegistered Level.ERROR Level.DEBUG) ⟨32, []⟩
    [Device.new 1 SerialLog Level.ERROR 0, Device.new 3 SerialLog Level.DEBUG 0]
    [plainEntry Level.DEBUG "a", plainEntry Level.ERROR "b", plainEntry Level.DEBUG "c"]
    rfl rfl (by decide) rfl
  refine ⟨h.1, h.2.2.2.2 ?_, by decide⟩
  intro d hd
  simp only [List.mem_cons, List.mem_singleton, List.not_mem_nil, or_false] at hd
  rcases hd with rfl | rfl
  · exact ⟨_, rfl⟩
  · exact ⟨_, rfl⟩

/-! ## The constructor of `Entry` -/

/-- C11: for a non-null format whose formatted text is `s`, the message of the constructed
entry is the 95-byte buffer holding the first min(|s|, 94) characters of `s`, then the
terminator (the bytes after it are those of the zeroed buffer): a text of more than 94
characters is cut to its first 94, a shorter one is stored whole; the buffer keeps its 95
bytes, so nothing is written at an index of 95 or more. Read as a C string the message
is the stored text whenever `s` holds no NUL. -/
theorem C11_message_is_text_cut_to_94 (now : timeval) (cur : Option Nat) (level : Level)
    (file : Option (List Char)) (line : Nat) (function : Option (List Char)) (s : List Char) :
    (Entry.new now cur level file line function (some s)).message =
      s.take (min s.length 94) ++ [NUL] ++ List.replicate (94 - min s.length 94) NUL ∧
    (Entry.new now cur level file line function (some s)).message.length = 95 ∧
    (94 < s.length →
      (Entry.new now cur level file line function (some s)).message = s.take 94 ++ [NUL]) ∧
    (s.length ≤ 94 →
      (Entry.new now cur level file line function (some s)).message =
        s ++ [NUL] ++ List.replicate (94 - s.length) NUL) ∧
    (NUL ∉ s → cstr (Entry.new now cur level file line function (some s)).message =
      s.take (min s.length 94)) := by
  have hmsg : (Entry.new now cur level file line function (some s)).message =
      s.take (min s.length 94) ++ [NUL] ++ List.replicate (94 - min s.length 94) NUL := by
    simp only [Entry.new, snprintf, MAX_MSG_LEN]
    have h1 : s.take (min s.length 94) = s.take 94 := by
      rcases Nat.le_total s.length 94 with h | h
      · rw [Nat.min_eq_left h, List.take_of_length_le h, List.take_of_length_le (Nat.le_refl _)]
      · rw [Nat.min_eq_right h]
    simp only [h1, Nat.add_one_sub_one, List.drop_replicate, List.length_take]
    simp
    congr 1
    omega
  refine ⟨hmsg, ?_, ?_, ?_, ?_⟩
  · rw [hmsg]
    simp [List.length_take]
    omega
  · intro h
    rw [hmsg, Nat.min_eq_right (by omega)]
    simp
  · intro h
    rw [hmsg, Nat.min_eq_left h, List.take_of_length_le (Nat.le_refl _)]
  · intro h
    rw [hmsg, cstr, List.append_assoc, List.takeWhile_append]
    have hall : ∀ c ∈ s.take (min s.length 94), (c != NUL) = true := by
      intro c hc
      have : c ∈ s := List.mem_of_mem_take hc
      simp only [bne_iff_ne, ne_eq]
      rintro rfl
      exact h this
    rw [List.takeWhile_eq_self_iff.2 hall]
    simp [List.takeWhile]

/-- C11, at a text of 100 characters and at a text of 2. -/
theorem C11_message_is_text_cut_to_94_witness :
    (Entry.new ⟨0, 0⟩ none Level.INFO none 0 none (some (List.replicate 100 'x'))).message =
        List.replicate 94 'x' ++ [NUL] ∧
      (Entry.new ⟨0, 0⟩ none Level.INFO none 0 none (some "Hi".toList)).message =
        "Hi".toList ++ [NUL] ++ List.replicate 92 NUL :=
  ⟨(C11_message_is_text_cut_to_94 ⟨0, 0⟩ none Level.INFO none 0 none
      (List.replicate 100 'x')).2.2.1 (by decide),
    (C11_message_is_text_cut_to_94 ⟨0, 0⟩ none Level.INFO none 0 none "Hi".toList).2.2.2.1
      (by decide)⟩

/-- C18: the constructor with a null format string returns an entry (the model has no
failure to return) whose message is the zeroed buffer, the empty string with the terminator
as its first byte, and whose level, file, line (a `uint32_t`) and function are those
given. -/
theorem C18_null_format_gives_empty_message (now : timeval) (cur : Option Nat) (level : Level)
    (file : Option (List Char)) (line : Nat) (function : Option (List Char)) :
    (Entry.new now cur level file line function none).message.head? = some NUL ∧
    cstr (Entry.new now cur level file line function none).message = [] ∧
    (Entry.new now cur level file line function none).message = List.replicate 95 NUL ∧
    (Entry.new now cur level file line function none).level = level ∧
    (Entry.new now cur level file line function none).file = file ∧
    (Entry.new now cur level file line function none).line = line % 2 ^ 32 ∧
    (line < 2 ^ 32 → (Entry.new now cur level file line function none).line = line) ∧
    (Entry.new now cur level file line function none).function = function := by
  refine ⟨rfl, rfl, rfl, rfl, rfl, rfl, ?_, rfl⟩
  intro h
  simp only [Entry.new]
  exact Nat.mod_eq_of_lt h

/-- C18, at the entry of a call from line 8 of a file. -/
theorem C18_null_format_gives_empty_message_witness :
    (Entry.new ⟨0, 0⟩ none Level.INFO (some "a.cpp".toList) 8 (some "f".toList) none).line = 8 :=
  (C18_null_format_gives_empty_message ⟨0, 0⟩ none Level.INFO (some "a.cpp".toList) 8
    (some "f".toList)).2.2.2.2.2.2.1 (by decide)

/-! ## The level tag -/

theorem land_mod_four (x m : Nat) (hm : m < 4) : x &&& m = (x % 4) &&& m := by
  have h3 : x % 4 = x &&& 3 := (Nat.and_pow_two_sub_one_eq_mod x 2).symm
  have hm3 : 3 &&& m = m := by
    interval_cases m <;> rfl
  rw [h3, Nat.land_assoc, hm3]

theorem Device.levelTag_eq_spec (d : Device) (entry : Entry)
    (h : entry.level ≠ Level.NOTHING) :
    d.levelTag entry = some (levelTagSpec (d.format_ % 4) entry.level) := by
  unfold Device.levelTag Device.writeLevel
  simp only [Device.clear, LEVEL_FULL, LEVEL_LETTER, LEVEL_SHORT]
  rw [land_mod_four d.format_ 3 (by decide), land_mod_four d.format_ 1 (by decide),
    land_mod_four d.format_ 2 (by decide)]
  have hk : d.format_ % 4 < 4 := Nat.mod_lt _ (by decide)
  generalize d.format_ % 4 = k at hk ⊢
  interval_cases k <;> cases hl : entry.level <;> first | exact absurd hl h | rfl

theorem tableAt_level_tables (level : Level) (h : level ≠ Level.NOTHING) :
    tableAt LEVEL_STR_FULL ((level.toNat : Int) - 1) = some level.fullName ∧
    tableAt LEVEL_STR_LETTER ((level.toNat : Int) - 1) = level.fullName.head? ∧
    tableAt LEVEL_STR_SHORT ((level.toNat : Int) - 1) = some (level.fullName.take 3) := by
  cases level <;> first | exact absurd rfl h | exact ⟨rfl, rfl, rfl⟩

/-- C13: for an entry at one of the levels `FATAL` to `ALWAYS`, the level tag that
`writeLevel` prints is a function of the two low bits of the format only: for the subfield 3
the full name of the level, for 1 its letter, for 2 its three-letter abbreviation, each
between `[` and `] `, and for 0 nothing. The names come from the three tables, where the
letter is the first character and the abbreviation the first three characters of the full
name. -/
theorem C13_level_tag_from_two_bit_subfield (d : Device) (entry : Entry)
    (hlevel : entry.level ≠ Level.NOTHING) :
    d.levelTag entry = some (levelTagSpec (d.format_ % 4) entry.level) ∧
    d.writeLevel entry = some (d.print (levelTagSpec (d.format_ % 4) entry.level)) ∧
    (∀ d' : Device, d'.format_ % 4 = d.format_ % 4 → d'.levelTag entry = d.levelTag entry) ∧
    tableAt LEVEL_STR_FULL ((entry.level.toNat : Int) - 1) = some entry.level.fullName ∧
    tableAt LEVEL_STR_LETTER ((entry.level.toNat : Int) - 1) = entry.level.fullName.head? ∧
    tableAt LEVEL_STR_SHORT ((entry.level.toNat : Int) - 1) =
      some (entry.level.fullName.take 3) := by
  have h1 := Device.levelTag_eq_spec d entry hlevel
  refine ⟨h1, ?_, ?_, tableAt_level_tables entry.level hlevel⟩
  · rw [Device.writeLevel_eq, h1]
    rfl
  · intro d' hd'
    rw [h1, Device.levelTag_eq_spec d' entry hlevel, hd']

/-- C13, at an `INFO` entry: the three styles and no style. -/
theorem C13_level_tag_from_two_bit_subfield_witness :
    (Device.new 1 SerialLog Level.DEBUG 3).levelTag (plainEntry Level.INFO "m") =
        some "[INFO] ".toList ∧
      (Device.new 1 SerialLog Level.DEBUG 1).levelTag (plainEntry Level.INFO "m") =
        some "[I] ".toList ∧
      (Device.new 1 SerialLog Level.DEBUG 2).levelTag (plainEntry Level.INFO "m") =
        some "[INF] ".toList ∧
      (Device.new 1 SerialLog Level.DEBUG 124).levelTag (plainEntry Level.INFO "m") =
        some [] :=
  ⟨(C13_level_tag_from_two_bit_subfield _ (plainEntry Level.INFO "m") (by decide)).1,
    (C13_level_tag_from_two_bit_subfield _ (plainEntry Level.INFO "m") (by decide)).1,
    (C13_level_tag_from_two_bit_subfield _ (plainEntry Level.INFO "m") (by decide)).1,
    (C13_level_tag_from_two_bit_subfield _ (plainEntry Level.INFO "m") (by decide)).1⟩

theorem Device.levelTag_nothing (d : Device) (entry : Entry)
    (hlevel : entry.level = Level.NOTHING) (hbit : d.format_ &&& LEVEL_FULL ≠ 0) :
    d.levelTag entry = none := by
  unfold Device.levelTag Device.writeLevel
  simp only [Device.clear, LEVEL_FULL, LEVEL_LETTER, LEVEL_SHORT, hlevel] at hbit ⊢
  rw [land_mod_four d.format_ 3 (by decide)] at hbit ⊢
  rw [land_mod_four d.format_ 1 (by decide), land_mod_four d.format_ 2 (by decide)]
  have hk : d.format_ % 4 < 4 := Nat.mod_lt _ (by decide)
  generalize d.format_ % 4 = k at hk hbit ⊢
  interval_cases k <;> first | exact absurd rfl hbit | rfl

/-- C19: the index `level - 1` that `writeLevel` computes lies in the bounds 0..8 of the
three tables of nine names exactly when the level of the entry is not `NOTHING`. An entry at
level `NOTHING`, the level of a default-constructed entry, is above the threshold of no
device, so it passes every filter; its index is -1, outside every table, and with a
level-tag bit set the read in `writeLevel`, and with it `write`, is undefined. -/
theorem C19_level_index_in_bounds_iff_not_nothing (P : Platform) (d : Device) (entry : Entry) :
    ((0 ≤ (entry.level.toNat : Int) - 1 ∧ (entry.level.toNat : Int) - 1 < 9) ↔
      entry.level ≠ Level.NOTHING) ∧
    (LEVEL_STR_FULL.length = 9 ∧ LEVEL_STR_SHORT.length = 9 ∧ LEVEL_STR_LETTER.length = 9) ∧
    ((tableAt LEVEL_STR_FULL ((entry.level.toNat : Int) - 1)).isSome ↔
      entry.level ≠ Level.NOTHING) ∧
    ((tableAt LEVEL_STR_SHORT ((entry.level.toNat : Int) - 1)).isSome ↔
      entry.level ≠ Level.NOTHING) ∧
    ((tableAt LEVEL_STR_LETTER ((entry.level.toNat : Int) - 1)).isSome ↔
      entry.level ≠ Level.NOTHING) ∧
    Entry.empty.level = Level.NOTHING ∧
    (entry.level = Level.NOTHING →
      ¬ d.level_.toNat < entry.level.toNat ∧
      d.write P entry = (d.rendering P entry).map d.emit ∧
      (entry.level.toNat : Int) - 1 = -1 ∧
      (d.format_ &&& LEVEL_FULL ≠ 0 → d.writeLevel entry = none ∧ d.write P entry = none)) := by
  refine ⟨?_, ⟨rfl, rfl, rfl⟩, ?_, ?_, ?_, rfl, ?_⟩
  · cases entry.level <;> simp [Level.toNat]
  · cases entry.level <;> simp [Level.toNat, tableAt, LEVEL_STR_FULL]
  · cases entry.level <;> simp [Level.toNat, tableAt, LEVEL_STR_SHORT]
  · cases entry.level <;> simp [Level.toNat, tableAt, LEVEL_STR_LETTER]
  · intro hlevel
    have hpass : ¬ d.level_.toNat < entry.level.toNat := by
      rw [hlevel]; simp [Level.toNat]
    have hw : d.write P entry = (d.rendering P entry).map d.emit := by
      rw [Device.write_eq, if_neg hpass]
    refine ⟨hpass, hw, by rw [hlevel]; rfl, ?_⟩
    intro hbit
    have hl := Device.levelTag_nothing d entry hlevel hbit
    refine ⟨?_, ?_⟩
    · rw [Device.writeLevel_eq, hl]; rfl
    · rw [hw, Device.rendering, hl]; rfl

/-- C19, at the default-constructed entry and a device of the highest threshold with the
default format: the entry is not filtered out and the write is undefined. -/
theorem C19_level_index_in_bounds_iff_not_nothing_witness :
    (¬ (Device.new 1 SerialLog Level.ALWAYS (DEFAULT_FORMAT : Nat)).level_.toNat <
        Entry.empty.level.toNat) ∧
      (Device.new 1 SerialLog Level.ALWAYS (DEFAULT_FORMAT : Nat)).write
        ⟨fun _ => none, ['\n']⟩ Entry.empty = none :=
  ⟨((C19_level_index_in_bounds_iff_not_nothing ⟨fun _ => none, ['\n']⟩
      (Device.new 1 SerialLog Level.ALWAYS (DEFAULT_FORMAT : Nat)) Entry.empty).2.2.2.2.2.2
      rfl).1,
    (((C19_level_index_in_bounds_iff_not_nothing ⟨fun _ => none, ['\n']⟩
      (Device.new 1 SerialLog Level.ALWAYS (DEFAULT_FORMAT : Nat)) Entry.empty).2.2.2.2.2.2
      rfl).2.2.2 (by decide)).2⟩

/-! ## The timestamp tag -/

theorem land_mod_sixteen (x m : Nat) (hm : m < 16) : x &&& m = (x % 16) &&& m := by
  have h3 : x % 16 = x &&& 15 := (Nat.and_pow_two_sub_one_eq_mod x 4).symm
  have hm3 : 15 &&& m = m := by
    interval_cases m <;> rfl
  rw [h3, Nat.land_assoc, hm3]

theorem strftime_short (t : Int) :
    strftime 10 (strftime_T (gmtime_r t) ++ [' ']) = some (utcClock t ++ [' ']) := by
  rw [strftime_T_gmtime_r, strftime, if_pos (by simp [utcClock_length])]

theorem Device.timestampTag_eq (d : Device) (entry : Entry) :
    d.timestampTag entry = timestampTagOf (d.format_ / 4 % 4) entry.timestamp := by
  unfold Device.timestampTag Device.writeTimestamp timestampTagOf
  simp only [Device.clear, TIMESTAMP_FULL, TIMESTAMP_SIMPLE, TIMESTAMP_SHORT, strftime_short]
  rw [land_mod_sixteen d.format_ 12 (by decide), land_mod_sixteen d.format_ 4 (by decide),
    land_mod_sixteen d.format_ 8 (by decide)]
  have hq : d.format_ / 4 % 4 = d.format_ % 16 / 4 := by omega
  rw [hq]
  have hk : d.format_ % 16 < 16 := Nat.mod_lt _ (by decide)
  generalize d.format_ % 16 = k at hk ⊢
  interval_cases k <;>
    simp +decide [Device.print, bytesOf_map_byte, bytesOf_append, bytesOf, utcClock, twoDigits]
  all_goals
    cases strftime 32 _ <;> simp [Device.print, bytesOf_map_byte]

theorem fmt_lld_nonneg (width : Nat) (n : Nat) : fmt_lld width (n : Int) = zeroPad width n := by
  simp [fmt_lld, zeroPad]

theorem toDigits_length_le (e m : Nat) (he : 0 < e) (hm : m < 10 ^ e) :
    (Nat.toDigits 10 m).length ≤ e :=
  Nat.toDigitsCore_length 10 (by decide) (m + 1) m e hm he

theorem toDigits_length_pos (m : Nat) : 0 < (Nat.toDigits 10 m).length := by
  simp only [Nat.toDigits, Nat.toDigitsCore]
  split
  · simp
  · rw [Nat.toDigitsCore_lens_eq]
    omega

/-- C14: the timestamp tag that `writeTimestamp` prints is chosen by the two bits 2 and 3 of
the format only: 3 is the full style, 1 the simple style, 2 the short style, 0 no tag. In
the simple style, for seconds `s >= 0` and microseconds `0 <= u < 1000000`, the tag is `s`
in decimal left-padded with zeros to 10 digits, a dot, `floor(u / 1000)` left-padded with
zeros to exactly 3 digits, and one space. -/
theorem C14_timestamp_style_from_two_bit_subfield (d : Device) (entry : Entry) :
    d.timestampTag entry = timestampTagOf (d.format_ / 4 % 4) entry.timestamp ∧
    d.writeTimestamp entry =
      (timestampTagOf (d.format_ / 4 % 4) entry.timestamp).map d.print ∧
    (∀ d' : Device, d'.format_ / 4 % 4 = d.format_ / 4 % 4 →
      d'.timestampTag entry = d.timestampTag entry) ∧
    (∀ s u : Nat, u < 1000000 →
      timestampTagOf 1 ⟨s, u⟩ = some (timestampSimple s u) ∧
      (zeroPad 3 (u / 1000)).length = 3 ∧
      10 ≤ (zeroPad 10 s).length ∧
      (s < 10 ^ 10 → (zeroPad 10 s).length = 10)) := by
  have h1 := Device.timestampTag_eq d entry
  refine ⟨h1, ?_, ?_, ?_⟩
  · rw [Device.writeTimestamp_eq, h1]
  · intro d' hd'
    rw [h1, Device.timestampTag_eq d' entry, hd']
  · intro s u hu
    refine ⟨?_, ?_, ?_, ?_⟩
    · have hdiv : Int.tdiv (u : Int) 1000 = ((u / 1000 : Nat) : Int) :=
        (Int.ofNat_tdiv u 1000).symm
      simp only [timestampTagOf, timestampSimple]
      rw [hdiv, fmt_lld_nonneg, fmt_lld_nonneg]
      simp
    · have h3 := toDigits_length_le 3 (u / 1000) (by decide) (by omega)
      have h0 := toDigits_length_pos (u / 1000)
      simp only [zeroPad, List.length_append, List.length_replicate]
      omega
    · simp only [zeroPad, List.length_append, List.length_replicate]
      omega
    · intro hs
      have h10 := toDigits_length_le 10 s (by decide) hs
      simp only [zeroPad, List.length_append, List.length_replicate]
      omega

/-- C14, at a device in the simple style (with other bits set as well) and the timestamp of
5 seconds and 1234 microseconds. -/
theorem C14_timestamp_style_from_two_bit_subfield_witness :
    (Device.new 1 SerialLog Level.DEBUG 119).timestampTag
        (Entry.new ⟨5, 1234⟩ none Level.INFO none 0 none (some "m".toList)) =
      some "0000000005.001 ".toList ∧
    timestampTagOf 1 ⟨5, 1234⟩ = some (timestampSimple 5 1234) := by
  refine ⟨?_, ((C14_timestamp_style_from_two_bit_subfield (Device.new 1 SerialLog Level.DEBUG 119)
    (Entry.new ⟨5, 1234⟩ none Level.INFO none 0 none (some "m".toList))).2.2.2 5 1234
    (by decide)).1⟩
  rw [(C14_timestamp_style_from_two_bit_subfield _ _).1]
  decide

/-! ## The source trace group -/

theorem Device.traceTag_eq (d : Device) (entry : Entry) :
    d.traceTag entry =
      if (d.format_ &&& FILE_TRACE ≠ 0 ∨ d.format_ &&& FUNCTION_TRACE ≠ 0) ∧
          (entry.file.isSome ∨ entry.function.isSome) then
        ['['] ++ filePart d.format_ entry ++ partSpace d.format_ entry ++
          functionPart d.format_ entry ++ "] ".toList
      else [] := by
  unfold Device.traceTag Device.writeFileFunctionTrace filePart partSpace functionPart
  simp only [Device.clear]
  rcases hf : entry.file with _ | file <;> rcases hg : entry.function with _ | function <;>
    by_cases h1 : d.format_ &&& FILE_TRACE = 0 <;>
    by_cases h2 : d.format_ &&& FUNCTION_TRACE = 0 <;>
    simp [h1, h2, Device.print, Device.printChar, Device.printNat, bytesOf_append,
      bytesOf_map_byte, bytesOf]

/-- C17 (amended): whenever `writeFileFunctionTrace` prints the source trace group, its text
is `[`, then the file part, the space, the function part, then `] `. The file part is the
file, a colon and the line in decimal when `FILE_TRACE` is set and the file is present, and
empty otherwise, so the line never appears without the file; the function part is the
function when `FUNCTION_TRACE` is set and the function is present; the space is there
exactly when both parts are present, that is when both bits are set and both pointers
non-null, whatever the texts are; for a function name that is not the empty string that is
exactly when both parts are non-empty. -/
theorem C17_source_group_text (d : Device) (entry : Entry) :
    (d.traceTag entry =
      if (d.format_ &&& FILE_TRACE ≠ 0 ∨ d.format_ &&& FUNCTION_TRACE ≠ 0) ∧
          (entry.file.isSome ∨ entry.function.isSome) then
        ['['] ++ filePart d.format_ entry ++ partSpace d.format_ entry ++
          functionPart d.format_ entry ++ "] ".toList
      else []) ∧
    d.writeFileFunctionTrace entry = d.print (d.traceTag entry) ∧
    (partSpace d.format_ entry = [' '] ↔
      (d.format_ &&& FILE_TRACE ≠ 0 ∧ entry.file.isSome) ∧
        (d.format_ &&& FUNCTION_TRACE ≠ 0 ∧ entry.function.isSome)) ∧
    (entry.function ≠ some [] →
      (partSpace d.format_ entry = [' '] ↔
        filePart d.format_ entry ≠ [] ∧ functionPart d.format_ entry ≠ [])) ∧
    (entry.file = none → filePart d.format_ entry = []) ∧
    (d.format_ &&& FILE_TRACE = 0 → filePart d.format_ entry = []) := by
  refine ⟨Device.traceTag_eq d entry, Device.writeFileFunctionTrace_eq d entry, ?_, ?_, ?_, ?_⟩
  · unfold partSpace
    split <;> simp_all
  · intro hne
    unfold partSpace filePart functionPart
    rcases hf : entry.file with _ | file <;> rcases hg : entry.function with _ | function <;>
      by_cases h1 : d.format_ &&& FILE_TRACE = 0 <;>
      by_cases h2 : d.format_ &&& FUNCTION_TRACE = 0 <;>
      simp [h1, h2]
    intro hfun
    exact hne (by rw [hg, hfun])
  · intro h
    simp [filePart, h]
  · intro h
    simp [filePart, h]

/-- C17 (amended), at an entry with file, line and function, under the three settings of the
two trace bits. -/
theorem C17_source_group_text_witness :
    (Device.new 1 SerialLog Level.DEBUG 48).traceTag
        (Entry.new ⟨0, 0⟩ none Level.INFO (some "a.cpp".toList) 8 (some "f".toList) none) =
      "[a.cpp:8 f] ".toList ∧
    (Device.new 1 SerialLog Level.DEBUG 16).traceTag
        (Entry.new ⟨0, 0⟩ none Level.INFO (some "a.cpp".toList) 8 (some "f".toList) none) =
      "[a.cpp:8] ".toList ∧
    (Device.new 1 SerialLog Level.DEBUG 32).traceTag
        (Entry.new ⟨0, 0⟩ none Level.INFO (some "a.cpp".toList) 8 (some "f".toList) none) =
      "[f] ".toList := by
  refine ⟨?_, ?_, ?_⟩ <;>
    rw [(C17_source_group_text _ _).1] <;> decide

/-- C17 as stated fails: with both trace bits set, an entry with a file and a function name
that is present but the empty string gets the group `[a.cpp:8 ] `; the function part is
empty and the space is printed all the same, so the text is not `[` + P + S + F + `] ` with
S a space exactly when both P and F are non-empty. -/
theorem C17_source_group_counterexample :
    (Device.new 1 SerialLog Level.DEBUG 48).traceTag
        (Entry.new ⟨0, 0⟩ none Level.INFO (some "a.cpp".toList) 8 (some []) none) =
      "[a.cpp:8 ] ".toList ∧
    functionPart 48
        (Entry.new ⟨0, 0⟩ none Level.INFO (some "a.cpp".toList) 8 (some []) none) = [] ∧
    (Device.new 1 SerialLog Level.DEBUG 48).traceTag
        (Entry.new ⟨0, 0⟩ none Level.INFO (some "a.cpp".toList) 8 (some []) none) ≠
      ['['] ++
        filePart 48 (Entry.new ⟨0, 0⟩ none Level.INFO (some "a.cpp".toList) 8 (some []) none) ++
        (if filePart 48
              (Entry.new ⟨0, 0⟩ none Level.INFO (some "a.cpp".toList) 8 (some []) none) ≠ [] ∧
            functionPart 48
              (Entry.new ⟨0, 0⟩ none Level.INFO (some "a.cpp".toList) 8 (some []) none) ≠ []
          then [' '] else []) ++
        functionPart 48
          (Entry.new ⟨0, 0⟩ none Level.INFO (some "a.cpp".toList) 8 (some []) none) ++
        "] ".toList := by
  decide

/-- C12 fails on the code: with `FILE_TRACE` set and `FUNCTION_TRACE` clear, an entry that has
a function and no file makes `writeFileFunctionTrace` print the empty group `[] `, though no
trace bit is set whose own datum is present; the same with `FUNCTION_TRACE` alone and an
entry that has only a file. -/
theorem C12_empty_source_group_is_printed :
    (Device.new 1 SerialLog Level.DEBUG FILE_TRACE).traceTag
        (Entry.new ⟨0, 0⟩ none Level.INFO none 0 (some "setup".toList) (some "m".toList)) =
      "[] ".toList ∧
    (Device.new 1 SerialLog Level.DEBUG FUNCTION_TRACE).traceTag
        (Entry.new ⟨0, 0⟩ none Level.INFO (some "main.cpp".toList) 8 none (some "m".toList)) =
      "[] ".toList ∧
    bytesOf ((Device.new 1 SerialLog Level.DEBUG FILE_TRACE).output ⟨fun _ => none, ['\n']⟩
        (Entry.new ⟨0, 0⟩ none Level.INFO none 0 (some "setup".toList) (some "m".toList))) =
      "[] - m\n".toList := by
  decide

/-! ## The task tag and the separator -/

theorem Device.taskTag_eq (P : Platform) (d : Device) (entry : Entry) :
    d.taskTag P entry =
      if d.format_ &&& TASK_TRACE ≠ 0 then
        "[task: ".toList ++ (P.pcTaskGetName entry.task).getD "<null>".toList ++ "] ".toList
      else [] := by
  unfold Device.taskTag Device.writeTaskTrace
  simp only [Device.clear]
  split <;> simp [Device.print, bytesOf_append, bytesOf_map_byte, bytesOf]

/-- C16 fails on the code. `writeTaskTrace` has the placeholder for a lookup that yields no
name, and prints it for a task handle the platform does not know, but it never tests the
task handle of the entry: on a platform whose lookup answers the null handle with the name
of the calling task, as `pcTaskGetName(NULL)` of FreeRTOS does, the default-constructed
entry, which carries no task identity, is printed with the tag `[task: asyncLoggingTas] `
(the name of the consumer task, as FreeRTOS stores it) and not with the placeholder. -/
theorem C16_null_task_prints_name_of_calling_task :
    Entry.empty.task = none ∧
    (Device.new 1 SerialLog Level.ALWAYS 64).taskTag
        ⟨fun t => if t = none then some "asyncLoggingTas".toList else none, ['\n']⟩
        Entry.empty = "[task: asyncLoggingTas] ".toList ∧
    (Device.new 1 SerialLog Level.ALWAYS 64).taskTag
        ⟨fun t => if t = none then some "asyncLoggingTas".toList else none, ['\n']⟩
        Entry.empty ≠ "[task: <null>] ".toList ∧
    bytesOf ((Device.new 1 SerialLog Level.ALWAYS 64).output
        ⟨fun t => if t = none then some "asyncLoggingTas".toList else none, ['\n']⟩
        Entry.empty) = "[task: asyncLoggingTas] - \n".toList ∧
    (Device.new 1 SerialLog Level.ALWAYS 64).taskTag
        ⟨fun t => if t = none then some "asyncLoggingTas".toList else none, ['\n']⟩
        (Entry.new ⟨0, 0⟩ (some 9) Level.INFO none 0 none none) = "[task: <null>] ".toList := by
  decide

theorem Device.tags_format_zero (P : Platform) (d : Device) (entry : Entry)
    (h : d.format_ = 0) :
    d.levelTag entry = some [] ∧ d.timestampTag entry = some [] ∧ d.traceTag entry = [] ∧
      d.taskTag P entry = [] := by
  refine ⟨?_, ?_, ?_, ?_⟩
  · simp +decide [Device.levelTag, Device.writeLevel, Device.clear, h, bytesOf, LEVEL_FULL,
      LEVEL_LETTER, LEVEL_SHORT]
  · simp +decide [Device.timestampTag, Device.writeTimestamp, Device.clear, h, bytesOf,
      TIMESTAMP_FULL, TIMESTAMP_SIMPLE, TIMESTAMP_SHORT]
  · simp [Device.traceTag_eq, h]
  · simp [Device.taskTag_eq, h]

theorem Device.output_bytes (P : Platform) (d d' : Device) (entry : Entry)
    (hw : d.write P entry = some d') (hpass : entry.level.toNat ≤ d.level_.toNat) :
    ∃ level timestamp, d.levelTag entry = some level ∧ d.timestampTag entry = some timestamp ∧
      bytesOf (d.output P entry) =
        d.kind.writeStart entry ++ (level ++ timestamp ++ d.traceTag entry ++ d.taskTag P entry) ++
          separator d.format_ ++ cstr entry.message ++ P.newline ++ d.kind.writeEnd entry := by
  have hout := Device.write_some P d d' entry hw
  rw [Device.write_eq, if_neg (by omega)] at hw
  cases hl : d.levelTag entry with
  | none => simp [Device.rendering, hl] at hw
  | some level =>
    cases ht : d.timestampTag entry with
    | none => simp [Device.rendering, hl, ht] at hw
    | some timestamp =>
      refine ⟨level, timestamp, rfl, rfl, ?_⟩
      simp only [Device.rendering, hl, ht, Option.some_bind, Option.map_some',
        Option.some.injEq] at hw
      rw [hout] at hw
      have hs := congrArg Device.sink hw
      simp only [Device.emit] at hs
      have hs2 := List.append_cancel_left hs
      rw [← hs2]
      simp [bytesOf_append, bytesOf_map_byte, bytesOf, List.append_assoc]

/-- C15: for an entry that the device renders, the bytes of the output are the output of
the `writeStart` hook, the four tags, the separator, the message, the line terminator and
the output of the `writeEnd` hook, where the separator, immediately before the message, is
the literal `- ` exactly when the stored format is non-zero and empty otherwise. With the
format 0 all tags are empty and the output is the message and the line terminator (between
the outputs of the hooks, which are empty for the hooks of `Device`); with a non-zero format
whose tags all come out empty it is `- `, the message and the line terminator. -/
theorem C15_separator_iff_format_nonzero (P : Platform) (d d' : Device) (entry : Entry)
    (hw : d.write P entry = some d') (hpass : entry.level.toNat ≤ d.level_.toNat) :
    (∃ level timestamp, d.levelTag entry = some level ∧ d.timestampTag entry = some timestamp ∧
      bytesOf (d.output P entry) =
        d.kind.writeStart entry ++ (level ++ timestamp ++ d.traceTag entry ++ d.taskTag P entry) ++
          separator d.format_ ++ cstr entry.message ++ P.newline ++ d.kind.writeEnd entry) ∧
    d'.sink = d.sink ++ d.output P entry ∧
    (separator d.format_ = "- ".toList ↔ d.format_ ≠ 0) ∧
    (separator d.format_ = [] ↔ d.format_ = 0) ∧
    (d.format_ = 0 →
      bytesOf (d.output P entry) =
        d.kind.writeStart entry ++ cstr entry.message ++ P.newline ++ d.kind.writeEnd entry) ∧
    (d.format_ = 0 ∧ d.kind.writeStart entry = [] ∧ d.kind.writeEnd entry = [] →
      bytesOf (d.output P entry) = cstr entry.message ++ P.newline) ∧
    (d.format_ ≠ 0 ∧ d.levelTag entry = some [] ∧ d.timestampTag entry = some [] ∧
        d.traceTag entry = [] ∧ d.taskTag P entry = [] →
      bytesOf (d.output P entry) =
        d.kind.writeStart entry ++ "- ".toList ++ cstr entry.message ++ P.newline ++
          d.kind.writeEnd entry) := by
  obtain ⟨level, timestamp, hl, ht, hb⟩ := Device.output_bytes P d d' entry hw hpass
  have hzero : d.format_ = 0 →
      bytesOf (d.output P entry) =
        d.kind.writeStart entry ++ cstr entry.message ++ P.newline ++ d.kind.writeEnd entry := by
    intro h0
    obtain ⟨h1, h2, h3, h4⟩ := Device.tags_format_zero P d entry h0
    rw [hl] at h1
    rw [ht] at h2
    rw [hb, Option.some.inj h1, Option.some.inj h2, h3, h4, h0]
    simp [separator]
  refine ⟨⟨level, timestamp, hl, ht, hb⟩, ?_, ?_, ?_, hzero, ?_, ?_⟩
  · rw [Device.write_some P d d' entry hw]
    rfl
  · unfold separator
    by_cases h0 : d.format_ = 0
    · rw [if_pos h0]
      exact ⟨fun h => absurd h (by decide), fun h => absurd h0 h⟩
    · rw [if_neg h0]
      exact ⟨fun _ => h0, fun _ => rfl⟩
  · unfold separator
    by_cases h0 : d.format_ = 0
    · rw [if_pos h0]
      exact ⟨fun _ => h0, fun _ => rfl⟩
    · rw [if_neg h0]
      exact ⟨fun h => absurd h (by decide), fun h => absurd h h0⟩
  · rintro ⟨h0, hs, he⟩
    rw [hzero h0, hs, he]
    simp
  · rintro ⟨hne, h1, h2, h3, h4⟩
    rw [hl] at h1
    rw [ht] at h2
    rw [hb, Option.some.inj h1, Option.some.inj h2, h3, h4]
    simp [separator, hne]

/-- C15, at a device of format 0, and at a device with only `FILE_TRACE` set and an entry
without source location. -/
theorem C15_separator_iff_format_nonzero_witness :
    bytesOf ((Device.new 1 SerialLog Level.DEBUG 0).output ⟨fun _ => none, ['\n']⟩
        (plainEntry Level.INFO "m")) = "m\n".toList ∧
    bytesOf ((Device.new 1 SerialLog Level.DEBUG 16).output ⟨fun _ => none, ['\n']⟩
        (plainEntry Level.INFO "m")) = "- m\n".toList := by
  refine ⟨?_, ?_⟩
  · exact (C15_separator_iff_format_nonzero ⟨fun _ => none, ['\n']⟩
      (Device.new 1 SerialLog Level.DEBUG 0)
      ((Device.new 1 SerialLog Level.DEBUG 0).emit
        ((Device.new 1 SerialLog Level.DEBUG 0).output ⟨fun _ => none, ['\n']⟩
          (plainEntry Level.INFO "m")))
      (plainEntry Level.INFO "m") rfl (by decide)).2.2.2.2.2.1 ⟨rfl, rfl, rfl⟩
  · exact (C15_separator_iff_format_nonzero ⟨fun _ => none, ['\n']⟩
      (Device.new 1 SerialLog Level.DEBUG 16)
      ((Device.new 1 SerialLog Level.DEBUG 16).emit
        ((Device.new 1 SerialLog Level.DEBUG 16).output ⟨fun _ => none, ['\n']⟩
          (plainEntry Level.INFO "m")))
      (plainEntry Level.INFO "m") rfl (by decide)).2.2.2.2.2.2 ⟨by decide, rfl, rfl, rfl, rfl⟩

/-! ## The invariant of the device collection -/

theorem Logger.valid_new : Logger.new.Valid := by
  refine ⟨?_, ?_⟩
  · intro h hh
    simp [Logger.new] at hh
  · simp [Logger.pointers, Logger.new]

theorem Logger.valid_registerDevice (lg : Logger) (TDevice : DeviceKind) (level : Level)
    (format : Int) (hv : lg.Valid) : (lg.registerDevice TDevice level format).2.Valid := by
  cases hinit : TDevice.initializeOk with
  | false => rw [Logger.registerDevice_failed lg TDevice level format hinit]; exact hv
  | true =>
    have helems : (lg.registerDevice TDevice level format).2.devices_.elems =
        lg.devices_.elems ++ [some (Device.new lg.heap_top TDevice level format)] := by
      unfold Logger.registerDevice DeviceVector.push_back
      simp only [Device.new, hinit, if_true]
      split <;> rfl
    have htop : (lg.registerDevice TDevice level format).2.heap_top = lg.heap_top + 2 := by
      unfold Logger.registerDevice
      simp only [Device.new, hinit, if_true]
    obtain ⟨hall, hnodup⟩ := hv
    refine ⟨?_, ?_⟩
    · intro h hh
      rw [helems, List.mem_append, List.mem_singleton] at hh
      rw [htop]
      rcases hh with hh | rfl
      · obtain ⟨d, rfl, hok, hlt⟩ := hall h hh
        exact ⟨d, rfl, hok, by omega⟩
      · exact ⟨_, rfl, hinit, by simp [Device.new]⟩
    · rw [Logger.pointers, helems, List.map_append, List.nodup_append]
      refine ⟨hnodup, by simp, ?_⟩
      intro p hp hq
      simp only [List.map_cons, List.map_nil, List.mem_singleton] at hq
      subst hq
      simp only [List.mem_map] at hp
      obtain ⟨h, hh, hget⟩ := hp
      obtain ⟨d, rfl, -, hlt⟩ := hall h hh
      simp only [DeviceHandle.get, Option.map_some', Device.new, Option.some.injEq] at hget
      omega

theorem Logger.valid_unregisterDevice (lg lg' : Logger) (handle : HandleRef) (hv : lg.Valid)
    (h : lg.unregisterDevice handle = some lg') : lg'.Valid := by
  unfold Logger.unregisterDevice at h
  cases hr : lg.read handle with
  | none => simp [hr] at h
  | some p =>
    cases p with
    | none =>
      simp only [hr, Option.some.injEq] at h
      rw [← h]; exact hv
    | some a =>
      simp only [hr, Option.some.injEq] at h
      subst h
      obtain ⟨hall, hnodup⟩ := hv
      refine ⟨?_, ?_⟩
      · intro x hx
        exact hall x (List.mem_of_mem_filter hx)
      · exact hnodup.sublist ((List.filter_sublist _).map _)

theorem Logger.valid_call (lg lg' : Logger) (c : Call) (hv : lg.Valid)
    (h : lg.call c = some lg') : lg'.Valid := by
  cases c with
  | registerDevice TDevice level format =>
    simp only [Logger.call, Option.some.injEq] at h
    rw [← h]
    exact Logger.valid_registerDevice lg TDevice level format hv
  | unregisterDevice handle => exact Logger.valid_unregisterDevice lg lg' handle hv h

theorem Logger.valid_calls (calls : List Call) (lg lg' : Logger) (hv : lg.Valid)
    (h : lg.calls calls = some lg') : lg'.Valid := by
  induction calls generalizing lg with
  | nil =>
    simp only [Logger.calls, Option.some.injEq] at h
    rw [← h]; exact hv
  | cons c cs ih =>
    simp only [Logger.calls] at h
    cases hc : lg.call c with
    | none => simp [hc] at h
    | some lg1 =>
      simp only [hc, Option.some_bind] at h
      exact ih lg1 (Logger.valid_call lg lg1 c hv hc) h

theorem Logger.calls_byValue_defined (calls : List Call) (lg : Logger)
    (h : ∀ c ∈ calls, c.byValue) : ∃ lg', lg.calls calls = some lg' := by
  induction calls generalizing lg with
  | nil => exact ⟨lg, rfl⟩
  | cons c cs ih =>
    have hc := h c (List.mem_cons_self c cs)
    have hcs : ∀ x ∈ cs, x.byValue := fun x hx => h x (List.mem_cons_of_mem c hx)
    have hdef : ∃ lg1, lg.call c = some lg1 := by
      cases c with
      | registerDevice TDevice level format => exact ⟨_, rfl⟩
      | unregisterDevice handle =>
        cases handle with
        | empty_handle => exact ⟨lg, rfl⟩
        | element buffer index => exact absurd hc (by simp [Call.byValue])
        | object p =>
          cases p with
          | none => exact ⟨lg, rfl⟩
          | some a => exact ⟨_, rfl⟩
    obtain ⟨lg1, hlg1⟩ := hdef
    obtain ⟨lg', hlg'⟩ := ih lg1 hcs
    exact ⟨lg', by simp [Logger.calls, hlg1, hlg']⟩

theorem Logger.valid_devices (lg : Logger) (hv : lg.Valid) :
    ∃ ds : List Device, lg.devices_.elems = ds.map some ∧
      (∀ d ∈ ds, d.kind.initializeOk = true) ∧ (ds.map Device.addr).Nodup := by
  obtain ⟨hall, hnodup⟩ := hv
  have hex : ∃ ds : List Device, lg.devices_.elems = ds.map some ∧
      (∀ d ∈ ds, d.kind.initializeOk = true) := by
    generalize lg.devices_.elems = elems at hall
    induction elems with
    | nil => exact ⟨[], rfl, by simp⟩
    | cons h t ih =>
      obtain ⟨d, rfl, hok, -⟩ := hall h (List.mem_cons_self h t)
      obtain ⟨ds, rfl, hds⟩ := ih fun x hx => hall x (List.mem_cons_of_mem _ hx)
      refine ⟨d :: ds, rfl, ?_⟩
      intro x hx
      rcases List.mem_cons.1 hx with rfl | hx
      · exact hok
      · exact hds x hx
  obtain ⟨ds, hds, hok⟩ := hex
  refine ⟨ds, hds, hok, ?_⟩
  rw [Logger.pointers, hds, List.map_map] at hnodup
  have hcomp : (DeviceHandle.get ∘ some) = fun d : Device => some d.addr := rfl
  rw [hcomp] at hnodup
  have : ds.map (fun d : Device => some d.addr) = (ds.map Device.addr).map some := by
    rw [List.map_map]; rfl
  rw [this] at hnodup
  exact List.Nodup.of_map _ hnodup

theorem Logger.forEachDevice_none (P : Platform) (entry : Entry) (ds : List Device)
    (h : Logger.forEachDevice P entry (ds.map some) = none) :
    ∃ d ∈ ds, Device.write P d entry = none := by
  by_contra hcon
  have hall : ∀ d ∈ ds, ∃ d', Device.write P d entry = some d' := by
    intro d hd
    cases hw : Device.write P d entry with
    | none => exact absurd ⟨d, hd, hw⟩ hcon
    | some d' => exact ⟨d', rfl⟩
  obtain ⟨ds', hds'⟩ := forall₂_of_forall_exists _ ds hall
  have := (Logger.forEachDevice_map_some P entry ds (ds'.map some, ds.map Device.addr)).2
    ⟨ds', hds', rfl⟩
  rw [h] at this
  cases this

/-- C20: the invariant of the device collection. From the freshly constructed logger, after
any sequence of `registerDevice` and `unregisterDevice` calls that is defined, every element
of the collection is a non-empty handle to a device whose `initialize()` returned true, and
no device occurs twice; so the collection is a list of devices, the loop of the consumer
never calls `write` through an empty handle, and a turn of it can be undefined only through
a `write` that is. With handles identified by value every sequence of calls is defined. -/
theorem C20_collection_holds_distinct_initialised_devices (calls : List Call) (lg' : Logger)
    (hrun : Logger.new.calls calls = some lg') :
    lg'.Valid ∧
    (∀ h ∈ lg'.devices_.elems, ∃ d : Device, h = some d ∧ d.kind.initializeOk = true) ∧
    lg'.pointers.Nodup ∧
    (∃ ds : List Device, lg'.devices_.elems = ds.map some ∧
      (∀ d ∈ ds, d.kind.initializeOk = true) ∧ (ds.map Device.addr).Nodup) ∧
    (∀ (P : Platform) (entry : Entry),
      Logger.forEachDevice P entry lg'.devices_.elems = none →
        ∃ d, some d ∈ lg'.devices_.elems ∧ Device.write P d entry = none) ∧
    (∀ calls' : List Call, (∀ c ∈ calls', c.byValue) →
      ∃ lg'', Logger.new.calls calls' = some lg'' ∧ lg''.Valid) := by
  have hv := Logger.valid_calls calls Logger.new lg' Logger.valid_new hrun
  refine ⟨hv, ?_, hv.2, Logger.valid_devices lg' hv, ?_, ?_⟩
  · intro h hh
    obtain ⟨d, hd, hok, -⟩ := hv.1 h hh
    exact ⟨d, hd, hok⟩
  · intro P entry hnone
    obtain ⟨ds, hds, -, -⟩ := Logger.valid_devices lg' hv
    rw [hds] at hnone ⊢
    obtain ⟨d, hd, hw⟩ := Logger.forEachDevice_none P entry ds hnone
    exact ⟨d, List.mem_map_of_mem some hd, hw⟩
  · intro calls' hby
    obtain ⟨lg'', hlg''⟩ := Logger.calls_byValue_defined calls' Logger.new hby
    exact ⟨lg'', hlg'', Logger.valid_calls calls' Logger.new lg'' Logger.valid_new hlg''⟩

/-- C20, at two successful registrations with a failed one in between, followed by the
unregistration of the first device by the value of its handle. -/
theorem C20_collection_holds_distinct_initialised_devices_witness :
    ∃ lg', Logger.new.calls
        [Call.registerDevice SerialLog Level.ERROR 0,
          Call.registerDevice (DeviceKind.plain false) Level.WARN 0,
          Call.registerDevice SerialLog Level.DEBUG 0,
          Call.unregisterDevice (HandleRef.object (some 1))] = some lg' ∧
      lg'.pointers = [some 3] ∧ lg'.Valid := by
  refine ⟨_, rfl, rfl, ?_⟩
  exact (C20_collection_holds_distinct_initialised_devices
    [Call.registerDevice SerialLog Level.ERROR 0,
      Call.registerDevice (DeviceKind.plain false) Level.WARN 0,
      Call.registerDevice SerialLog Level.DEBUG 0,
      Call.unregisterDevice (HandleRef.object (some 1))] _ rfl).1

end asyncLogger
